import Mathlib

/-!
Shallow embedding of koishi-plugin-multi-bot-controller-chatluna-charon.

The embedding translates the identity-to-conversation resolution and
reconciliation logic of the plugin:

* `BotManager` (src/bot-manager.ts): identity ids, preset-name parsing,
  `createRoom`.
* `ChainInterceptor` (src/interceptors/chain.ts): the pre-hook
  `charon_resolve_bot_room`, the post-hook `charon_fix_room_auto_update`,
  `findBotSpecificRoom`, `getOrCreateBotSpecificRoom`,
  `createBotSpecificRoom`.
* `MemoryInterceptor` (src/interceptors/memory.ts): the
  `chatluna-long-memory/init-layer` handler.

Database state is modelled as explicit lists of records; the external store
operations `database.get`, `database.create` and `database.upsert` are
modelled as pure list operations, where `create` fails (as the koishi store
does) when a record with the same primary key already exists.  Randomness
(`randomUUID`) and wall-clock time (`new Date()`) are passed in as explicit
parameters.  Fallible paths return `Except String`.
-/

namespace Charon

/-- A row of the `chathub_room` table (conversation record). -/
structure Room where
  roomId : Nat
  roomName : String
  roomMasterId : String
  conversationId : String
  preset : String
  model : String
  chatMode : String
  visibility : String
  password : String
  autoUpdate : Bool
  updatedTime : Nat
  deriving Repr, DecidableEq

/-- A row of the `chathub_room_member` table (membership record). -/
structure Member where
  userId : String
  roomId : Nat
  roomPermission : String
  deriving Repr, DecidableEq

/-- A row of the `chathub_room_group_member` table (scope association). -/
structure GroupMember where
  groupId : String
  roomId : Nat
  roomVisibility : String
  deriving Repr, DecidableEq

/-- A row of the `chathub_user` table (user default-room record). -/
structure ChathubUser where
  userId : String
  groupId : String
  defaultRoomId : Nat
  deriving Repr, DecidableEq

/-- The store state: the four tables the plugin touches. -/
structure DB where
  rooms : List Room
  members : List Member
  groupMembers : List GroupMember
  users : List ChathubUser
  deriving Repr, DecidableEq

/-- One entry of the plugin configuration array (`BotPersonaConfig` in
src/types.ts).  `chatMode` is optional in the source (`'chat' | 'plugin'`);
the empty string models an absent value (it is falsy in the source's
`chatMode || 'chat'`). -/
structure BotPersonaConfig where
  botId : String
  enabled : Bool
  preset : String
  model : String
  chatMode : String
  deriving Repr, DecidableEq

/-- The fields of a koishi session read by the interceptor.  `botSelfId`
models `session.bot?.selfId` (`none` when absent), `guildId = ""` models an
absent guild id (falsy, i.e. a direct/private message), `username = ""` and
`guildName = ""` model absent values. -/
structure Session where
  platform : String
  botSelfId : Option String
  selfId : String
  userId : String
  guildId : String
  username : String
  guildName : String
  deriving Repr, DecidableEq

/-- `PresetSource` from src/types.ts. -/
inductive PresetSource where
  | ChatLuna
  | Character
  deriving Repr, DecidableEq

/-- `ChainMiddlewareRunStatus` from src/interceptors/chain.ts. -/
inductive RunStatus where
  | SKIPPED
  | STOP
  | CONTINUE
  deriving Repr, DecidableEq

/-- `BotManager.getBotId`: `platform:selfId`. -/
def getBotId (platform selfId : String) : String :=
  platform ++ ":" ++ selfId

/-- `BotManager.generateConversationId`: `bot_{botId}_{uuid}` with the uuid
passed explicitly (the source calls `randomUUID()`). -/
def generateConversationId (botId uuid : String) : String :=
  "bot_" ++ botId ++ "_" ++ uuid

/-- JavaScript `String.prototype.split` on a single separator character:
splits at every occurrence of the separator, keeping empty pieces
(`"".split(c) = [""]`, `":".split(":") = ["", ""]`). -/
def jsSplitChar (c : Char) : List Char → List (List Char)
  | [] => [[]]
  | x :: xs =>
    let r := jsSplitChar c xs
    if x = c then [] :: r
    else
      match r with
      | [] => [[x]]
      | y :: ys => (x :: y) :: ys

/-- `raw.split(c, 2)` in JavaScript: the limit argument truncates the split
result to at most two entries, discarding the rest of the string. -/
def jsSplitChar2 (c : Char) (s : String) : List String :=
  ((jsSplitChar c s.data).map String.mk).take 2

/-- `BotManager.parsePresetName`.  The source computes
`presetName.split(':', 2)`.  If there are two parts and the
first is the literal value of `PresetSource.ChatLuna` or
`PresetSource.Character`, the (truncated) second part is the name;
otherwise the whole input is the name and the source defaults to ChatLuna. -/
def parsePresetName (presetName : String) : String × PresetSource :=
  let parts := jsSplitChar2 ':' presetName
  match parts with
  | [p0, p1] =>
    if p0 = "chatluna" then (p1, PresetSource.ChatLuna)
    else if p0 = "character" then (p1, PresetSource.Character)
    else (presetName, PresetSource.ChatLuna)
  | _ => (presetName, PresetSource.ChatLuna)

/-! ## Store operations

`database.create` on the koishi store fails when a record with the table's
primary key already exists; the error message of the sqlite driver contains
`UNIQUE constraint`.  Primary keys: `chathub_room` — `roomId`;
`chathub_room_member` — `(userId, roomId)`; `chathub_room_group_member` —
`(groupId, roomId)`; `chathub_user` — `(userId, groupId)`. -/

/-- `database.create('chathub_room', r)`. -/
def dbCreateRoom (db : DB) (r : Room) : Except String DB :=
  if db.rooms.any (fun x => x.roomId == r.roomId) then
    .error "UNIQUE constraint failed: chathub_room.roomId"
  else .ok { db with rooms := db.rooms ++ [r] }

/-- `database.create('chathub_room_member', m)`. -/
def dbCreateMember (db : DB) (m : Member) : Except String DB :=
  if db.members.any (fun x => x.userId == m.userId && x.roomId == m.roomId) then
    .error "UNIQUE constraint failed: chathub_room_member"
  else .ok { db with members := db.members ++ [m] }

/-- `database.create('chathub_room_group_member', g)`. -/
def dbCreateGroupMember (db : DB) (g : GroupMember) : Except String DB :=
  if db.groupMembers.any (fun x => x.groupId == g.groupId && x.roomId == g.roomId) then
    .error "UNIQUE constraint failed: chathub_room_group_member"
  else .ok { db with groupMembers := db.groupMembers ++ [g] }

/-- `database.create('chathub_user', u)`. -/
def dbCreateUser (db : DB) (u : ChathubUser) : Except String DB :=
  if db.users.any (fun x => x.userId == u.userId && x.groupId == u.groupId) then
    .error "UNIQUE constraint failed: chathub_user"
  else .ok { db with users := db.users ++ [u] }

/-- `database.upsert('chathub_room', [r])`: update the row with the same
primary key, or insert if absent. -/
def dbUpsertRoom (db : DB) (r : Room) : DB :=
  if db.rooms.any (fun x => x.roomId == r.roomId) then
    { db with rooms := db.rooms.map (fun x => if x.roomId == r.roomId then r else x) }
  else { db with rooms := db.rooms ++ [r] }

/-! ## `BotManager.createRoom` -/

/-- The options argument of `BotManager.createRoom`.  Optional string
fields (`guildId?`, `preset?`, `model?`, `chatMode?`) use `""` for an
absent value, matching the source's falsiness tests on them. -/
structure CreateRoomOptions where
  botId : String
  roomName : String
  roomMasterId : String
  guildId : String
  visibility : String
  preset : String
  model : String
  chatMode : String
  deriving Repr, DecidableEq

/-- The maximal existing `roomId` (the source queries one row sorted by
`roomId` descending and falls back to 0 on an empty table). -/
def maxRoomId (db : DB) : Nat :=
  (db.rooms.map Room.roomId).foldr max 0

/-- The room row `BotManager.createRoom` builds before inserting it. -/
def newRoomOf (db : DB) (o : CreateRoomOptions) (uuid : String) (now : Nat) : Room :=
  { roomId := maxRoomId db + 1
    roomName := o.roomName
    roomMasterId := o.roomMasterId
    conversationId := generateConversationId o.botId uuid
    preset := if o.preset ≠ "" then (parsePresetName o.preset).1 else ""
    model := o.model
    chatMode := if o.chatMode = "" then "chat" else o.chatMode
    visibility := o.visibility
    password := ""
    autoUpdate := false
    updatedTime := now }

/-- `BotManager.createRoom` (src/bot-manager.ts).  Reads the maximal
existing `roomId` (0 when the table is empty) and allocates `max + 1`;
builds the new room with `conversationId = bot_{botId}_{uuid}`,
`preset = parsePresetName(preset).name` when a preset is declared (else
`""`), `model = model || ''`, `chatMode = chatMode || 'chat'`,
`autoUpdate: false`, `password: ''`; then creates the room row, the
owner membership row, and — for a non-private room with a guild id — the
group-association row.  Each create logs and rethrows its error. -/
def createRoom (db : DB) (o : CreateRoomOptions) (uuid : String) (now : Nat) :
    Except String (DB × Room) := do
  let newRoomId := maxRoomId db + 1
  let newRoom : Room := newRoomOf db o uuid now
  let db ← dbCreateRoom db newRoom
  let db ← dbCreateMember db
    { userId := o.roomMasterId, roomId := newRoomId, roomPermission := "owner" }
  let db ←
    if o.guildId ≠ "" && o.visibility ≠ "private" then
      dbCreateGroupMember db
        { groupId := o.guildId, roomId := newRoomId, roomVisibility := o.visibility }
    else pure db
  return (db, newRoom)

/-! ## `ChainInterceptor` (src/interceptors/chain.ts) -/

/-- Executable substring containment on character lists (JavaScript
`String.prototype.includes`). -/
def listHasInfix (pat : List Char) : List Char → Bool
  | [] => pat.isEmpty
  | x :: xs => pat.isPrefixOf (x :: xs) || listHasInfix pat xs

/-- `roomName?.includes('(' + botId + ')')` — substring containment of the
parenthesised bot id in a room's display name. -/
def nameHasBot (botId roomName : String) : Bool :=
  listHasInfix ("(" ++ botId ++ ")").data roomName.data

/-- The per-message stash `context.options.charonBotConfig` written by the
pre-hook and read by the post-hook. -/
structure CharonBotConfig where
  botId : String
  preset : String
  model : String
  chatMode : String
  deriving Repr, DecidableEq

/-- The room ids of the user's membership rows
(`database.get('chathub_room_member', { userId })` followed by
`.map(r => r.roomId)`). -/
def userRoomIds (db : DB) (userId : String) : List Nat :=
  (db.members.filter (fun m => m.userId == userId)).map Member.roomId

/-- The user's candidate rooms in `getOrCreateBotSpecificRoom`: the rooms
whose id is among the user's memberships
(`database.get('chathub_room', { roomId: { $in: roomIds } })`), filtered to
those whose display name contains `(botId)`. -/
def candidateRooms (db : DB) (userId botId : String) : List Room :=
  ((db.rooms.filter (fun r => (userRoomIds db userId).contains r.roomId)).filter
    (fun r => nameHasBot botId r.roomName))

/-- The ids of group-association rows for the guild restricted to the
user's membership room ids
(`database.get('chathub_room_group_member', { groupId: guildId, roomId: { $in: roomIds } })`
followed by collecting the `roomId`s). -/
def groupRoomIds (db : DB) (userId guildId : String) : List Nat :=
  ((db.groupMembers.filter
    (fun g => g.groupId == guildId && (userRoomIds db userId).contains g.roomId)).map
    GroupMember.roomId)

/-- The pure find part of `ChainInterceptor.getOrCreateBotSpecificRoom`:
when the user has membership rows, filter their rooms by display name and
apply the scope tie-break — group scope: first candidate associated with
the guild with `template_clone` visibility, else first candidate associated
with the guild; direct scope: first `private` candidate mastered by this
user, else first `private` candidate, else the first candidate.  `none`
means the source falls through to creation. -/
def selectRoom (db : DB) (s : Session) (botId : String) : Option Room :=
  if (db.members.filter (fun m => m.userId == s.userId)).isEmpty then none
  else
    let rooms := candidateRooms db s.userId botId
    if s.guildId ≠ "" then
      let gids := groupRoomIds db s.userId s.guildId
      (rooms.find? (fun r => gids.contains r.roomId && r.visibility == "template_clone")).orElse
        (fun _ => rooms.find? (fun r => gids.contains r.roomId))
    else
      ((rooms.find? (fun r => r.visibility == "private" && r.roomMasterId == s.userId)).orElse
        (fun _ => rooms.find? (fun r => r.visibility == "private"))).orElse
        (fun _ => rooms.head?)

/-- The `createRoom` options `ChainInterceptor.createBotSpecificRoom`
builds: display name `{username} ({botId})` (direct) or
`{guild name or username} ({botId})` (group); visibility `private`
(direct) or `template_clone` (group); the declared preset, model and
chat mode (`chatMode || 'chat'`). -/
def botRoomOptions (s : Session) (botId : String) (cfg : BotPersonaConfig) :
    CreateRoomOptions :=
  let isDirect := s.guildId = ""
  let username := if s.username = "" then s.userId else s.username
  { botId := botId
    roomName :=
      (if isDirect then username
       else if s.guildName = "" then username else s.guildName) ++ " (" ++ botId ++ ")"
    roomMasterId := s.userId
    guildId := s.guildId
    visibility := if isDirect then "private" else "template_clone"
    preset := cfg.preset
    model := cfg.model
    chatMode := if cfg.chatMode = "" then "chat" else cfg.chatMode }

/-- The `chathub_user` default-room row `createBotSpecificRoom` creates
(`groupId` is the literal `'0'` for a direct message). -/
def defaultUserRow (s : Session) (roomId : Nat) : ChathubUser :=
  { userId := s.userId
    groupId := if s.guildId = "" then "0" else s.guildId
    defaultRoomId := roomId }

/-- `ChainInterceptor.createBotSpecificRoom`: calls `BotManager.createRoom`
with `botRoomOptions`, then creates the `chathub_user` default-room row,
swallowing any error of that last create (a `UNIQUE constraint` error is
logged at debug severity, anything else at warning severity; neither is
rethrown). -/
def createBotSpecificRoom (db : DB) (s : Session) (botId : String)
    (cfg : BotPersonaConfig) (uuid : String) (now : Nat) :
    Except String (DB × Room) := do
  let (db1, newRoom) ← createRoom db (botRoomOptions s botId cfg) uuid now
  let db2 :=
    match dbCreateUser db1 (defaultUserRow s newRoom.roomId) with
    | .ok d => d
    | .error _ => db1
  return (db2, newRoom)

/-- `ChainInterceptor.getOrCreateBotSpecificRoom`: return the selected
existing room, or create a bot-specific one. -/
def getOrCreateBotSpecificRoom (db : DB) (s : Session) (botId : String)
    (cfg : BotPersonaConfig) (uuid : String) (now : Nat) :
    Except String (DB × Room) :=
  match selectRoom db s botId with
  | some r => .ok (db, r)
  | none => createBotSpecificRoom db s botId cfg uuid now

/-- `ChainInterceptor.findBotSpecificRoom`: look up rooms by exact display
name; if the first hit's name contains `(botId)` return it, else `null`. -/
def findBotSpecificRoom (db : DB) (roomName botId : String) : Option Room :=
  match (db.rooms.filter (fun r => r.roomName == roomName)).head? with
  | some room => if nameHasBot botId room.roomName then some room else none
  | none => none

/-! ## Pre-hook: `charon_resolve_bot_room` -/

/-- The observable outcome of the pre-hook middleware: the status returned
to the chain, the stash `context.options.charonBotConfig`, the bound room
`context.options.room`, and the store state after the call. -/
structure ResolveOutcome where
  status : RunStatus
  stash : Option CharonBotConfig
  room : Option Room
  db : DB
  deriving Repr, DecidableEq

/-- The `charon_resolve_bot_room` middleware (registered before
`resolve_room`).  Derives `botId` from `session.bot?.selfId ?? session.selfId`
and the platform; returns CONTINUE untouched when no enabled config exists
or when both declared preset and model are empty; STOPs for a
`character`-source preset (the character plugin handles the message, no
store access); otherwise stashes `charonBotConfig` and binds either the
explicitly named room (when `context.options.room_resolve.name` is set) or
the found-or-created bot-specific room. -/
def resolveBotRoom (db : DB) (s : Session) (configs : List BotPersonaConfig)
    (roomResolveName : Option String) (uuid : String) (now : Nat) :
    Except String ResolveOutcome :=
  let selfId := s.botSelfId.getD s.selfId
  let botId := getBotId s.platform selfId
  match configs.find? (fun b => b.botId == botId) with
  | none => .ok ⟨.CONTINUE, none, none, db⟩
  | some cfg =>
    if !cfg.enabled then .ok ⟨.CONTINUE, none, none, db⟩
    else if cfg.preset = "" && cfg.model = "" then .ok ⟨.CONTINUE, none, none, db⟩
    else
      let parsed : String × Option PresetSource :=
        if cfg.preset ≠ "" then
          ((parsePresetName cfg.preset).1, some (parsePresetName cfg.preset).2)
        else ("", none)
      if parsed.2 = some PresetSource.Character then .ok ⟨.STOP, none, none, db⟩
      else
        let stash : CharonBotConfig :=
          { botId := botId
            preset := parsed.1
            model := cfg.model
            chatMode := if cfg.chatMode = "" then "chat" else cfg.chatMode }
        match roomResolveName with
        | some rn => .ok ⟨.CONTINUE, some stash, findBotSpecificRoom db rn botId, db⟩
        | none => do
          let (db1, botRoom) ← getOrCreateBotSpecificRoom db s botId cfg uuid now
          .ok ⟨.CONTINUE, some stash, some botRoom, db1⟩

/-! ## Post-hook: `charon_fix_room_auto_update` -/

/-- The field-correction step of `charon_fix_room_auto_update` (the
`needsFix` / `fixedRoom` block): overwrite `preset` when the stashed
preset is non-empty and differs from the room's, `model` when the stashed
model is non-empty and differs, `chatMode` whenever it differs.  Returns
the corrected copy and whether any field changed. -/
def fixRoomFields (c : CharonBotConfig) (room : Room) : Room × Bool :=
  let needs1 := c.preset != "" && room.preset != c.preset
  let f1 := if needs1 then { room with preset := c.preset } else room
  let needs2 := c.model != "" && room.model != c.model
  let f2 := if needs2 then { f1 with model := c.model } else f1
  let needs3 := room.chatMode != c.chatMode
  let f3 := if needs3 then { f2 with chatMode := c.chatMode } else f2
  (f3, needs1 || needs2 || needs3)

/-- The observable outcome of the post-hook: the store state, the room
bound to the message context afterwards, and whether an upsert was
performed. -/
structure FixOutcome where
  db : DB
  room : Option Room
  upserted : Bool
  deriving Repr, DecidableEq

/-- JavaScript `conversationId?.startsWith(prefixString)`, computed on the
underlying character lists. -/
def strStartsWith (s pre : String) : Bool :=
  pre.data.isPrefixOf s.data

/-- The ownership check and rebinding block of
`charon_fix_room_auto_update`: when the bound room's `conversationId`
starts with `bot_{botId}_` it is kept; otherwise, when the bot's config is
still registered, `getOrCreateBotSpecificRoom` is re-run and its result
becomes the bound room (the config lookup failing leaves the wrong room
bound). -/
def rebindStep (db : DB) (s : Session) (configs : List BotPersonaConfig)
    (c : CharonBotConfig) (r : Room) (uuid : String) (now : Nat) :
    Except String (DB × Room) :=
  if strStartsWith r.conversationId ("bot_" ++ c.botId ++ "_") then
    Except.ok (db, r)
  else
    match configs.find? (fun b => b.botId == c.botId) with
    | some cfg => getOrCreateBotSpecificRoom db s c.botId cfg uuid now
    | none => Except.ok (db, r)

/-- The `charon_fix_room_auto_update` middleware (registered after
`resolve_room`).  No-op without a stash or a bound room; otherwise run
`rebindStep`, compute the corrected copy of the (possibly rebound) room,
and — if any field changed — bump `updatedTime`, upsert it and rebind the
context to the corrected copy. -/
def fixRoomAutoUpdate (db : DB) (s : Session) (configs : List BotPersonaConfig)
    (stash : Option CharonBotConfig) (room : Option Room) (uuid : String) (now : Nat) :
    Except String FixOutcome :=
  match stash, room with
  | some c, some r => do
    let (db1, cur) ← rebindStep db s configs c r uuid now
    let fixed := fixRoomFields c cur
    if fixed.2 then
      let fr := { fixed.1 with updatedTime := now }
      Except.ok ⟨dbUpsertRoom db1 fr, some fr, true⟩
    else
      Except.ok ⟨db1, some cur, false⟩
  | _, _ => .ok ⟨db, room, false⟩

/-! ## `MemoryInterceptor` (src/interceptors/memory.ts) -/

/-- The fields of the `chatluna-long-memory/init-layer` event payload read
by the handler.  `sessionBotSelfId` models `session?.bot?.selfId`,
`sessionSelfId` models `session?.selfId`; `sessionPlatform` carries the
session's platform (present on the session but never read by the
handler).  `userId`/`guildId` are the memory-layer keys; `none` models an
absent field. -/
structure LayerConfig where
  sessionPlatform : String
  sessionBotSelfId : Option String
  sessionSelfId : Option String
  userId : Option String
  guildId : Option String
  deriving Repr, DecidableEq

/-- JavaScript truthiness of an optional string: present and non-empty. -/
def truthy : Option String → Bool
  | some s => s ≠ ""
  | none => false

/-- The `chatluna-long-memory/init-layer` handler: when isolation is
enabled and `session?.bot?.selfId ?? session?.selfId` is truthy, prefix a
truthy `userId` and a truthy `guildId` with `{botId}_`.  Pure function of
the payload; no store access. -/
def memoryInitLayer (isolateLongMemory : Bool) (layer : LayerConfig) : LayerConfig :=
  if !isolateLongMemory then layer
  else
    let botIdOpt := layer.sessionBotSelfId.orElse (fun _ => layer.sessionSelfId)
    if !truthy botIdOpt then layer
    else
      let botId := botIdOpt.getD ""
      let layer1 :=
        if truthy layer.userId then
          { layer with userId := some (botId ++ "_" ++ layer.userId.getD "") }
        else layer
      if truthy layer1.guildId then
        { layer1 with guildId := some (botId ++ "_" ++ layer1.guildId.getD "") }
      else layer1

/-! # Lemmas -/

/-! ## Splitting lemmas for `parsePresetName` -/

lemma jsSplitChar_ne_nil (c : Char) (l : List Char) : jsSplitChar c l ≠ [] := by
  cases l with
  | nil => simp [jsSplitChar]
  | cons x xs =>
    simp only [jsSplitChar]
    split
    · simp
    · cases h : jsSplitChar c xs <;> simp

lemma jsSplitChar_of_not_mem (c : Char) (l : List Char) (h : ∀ ch ∈ l, ch ≠ c) :
    jsSplitChar c l = [l] := by
  induction l with
  | nil => simp [jsSplitChar]
  | cons x xs ih =>
    have hx : x ≠ c := h x (List.mem_cons_self x xs)
    have hxs : ∀ ch ∈ xs, ch ≠ c := fun ch hch => h ch (List.mem_cons_of_mem x hch)
    simp [jsSplitChar, hx, ih hxs]

lemma jsSplitChar_append_sep (c : Char) (l₁ l₂ : List Char) (h : ∀ ch ∈ l₁, ch ≠ c) :
    jsSplitChar c (l₁ ++ c :: l₂) = l₁ :: jsSplitChar c l₂ := by
  induction l₁ with
  | nil => simp [jsSplitChar]
  | cons x xs ih =>
    have hx : x ≠ c := h x (List.mem_cons_self x xs)
    have hxs : ∀ ch ∈ xs, ch ≠ c := fun ch hch => h ch (List.mem_cons_of_mem x hch)
    simp only [List.cons_append, jsSplitChar, if_neg hx]
    rw [show xs.append (c :: l₂) = xs ++ c :: l₂ from rfl, ih hxs]

lemma data_append_colon (a : String) (rest : List Char)
    (_ha : ∀ ch ∈ a.data, ch ≠ ':') (hcolon : (a ++ ":").data = a.data ++ [':']) :
    ∀ b : String, b.data = rest → ((a ++ ":") ++ b).data = a.data ++ ':' :: rest := by
  intro b hb
  rw [String.data_append, hcolon, hb, List.append_assoc]
  rfl

/-! # Claim theorems -/

/-- C6 counterexample: the claim states that for an input whose prefix is a
known source, `resolveName` returns the entire remainder after the first
separator, "including when the remainder itself contains separators".  On
the input `chatluna:foo:bar` the code (`split(':', 2)` with the JavaScript
truncating limit) returns the name `foo`, not the remainder `foo:bar`. -/
theorem C6_counterexample :
    parsePresetName "chatluna:foo:bar" = ("foo", PresetSource.ChatLuna) ∧
      ("foo" : String) ≠ "foo:bar" := by
  constructor
  · decide
  · decide

/-- C6 amended: `parsePresetName` is a pure function that splits on the
namespace separator `:`.  When the input contains no separator, or its
first segment is not a known source, the whole input is returned as the
name with the primary (ChatLuna) source.  When the first segment is a
known source (`chatluna` or `character`), the returned name is the segment
strictly between the first and second separators — anything after a second
separator is discarded — together with that source. -/
theorem C6_amended :
    (∀ s : String, (∀ ch ∈ s.data, ch ≠ ':') →
      parsePresetName s = (s, PresetSource.ChatLuna)) ∧
    (∀ name : String, (∀ ch ∈ name.data, ch ≠ ':') →
      parsePresetName ("chatluna:" ++ name) = (name, PresetSource.ChatLuna) ∧
      parsePresetName ("character:" ++ name) = (name, PresetSource.Character)) ∧
    (∀ name rest : String, (∀ ch ∈ name.data, ch ≠ ':') →
      parsePresetName ("chatluna:" ++ (name ++ ":" ++ rest)) = (name, PresetSource.ChatLuna) ∧
      parsePresetName ("character:" ++ (name ++ ":" ++ rest)) = (name, PresetSource.Character)) ∧
    (∀ p rest : String, (∀ ch ∈ p.data, ch ≠ ':') → p ≠ "chatluna" → p ≠ "character" →
      parsePresetName (p ++ ":" ++ rest) = (p ++ ":" ++ rest, PresetSource.ChatLuna)) := by
  refine ⟨?_, ?_, ?_, ?_⟩
  · intro s h
    simp [parsePresetName, jsSplitChar2, jsSplitChar_of_not_mem ':' s.data h]
  · intro name h
    have hd1 : ("chatluna:" ++ name).data = "chatluna".data ++ ':' :: name.data :=
      data_append_colon "chatluna" name.data (by decide) rfl name rfl
    have hd2 : ("character:" ++ name).data = "character".data ++ ':' :: name.data :=
      data_append_colon "character" name.data (by decide) rfl name rfl
    have hs1 : jsSplitChar ':' ("chatluna".data ++ ':' :: name.data) =
        "chatluna".data :: jsSplitChar ':' name.data :=
      jsSplitChar_append_sep ':' "chatluna".data name.data (by decide)
    have hs2 : jsSplitChar ':' ("character".data ++ ':' :: name.data) =
        "character".data :: jsSplitChar ':' name.data :=
      jsSplitChar_append_sep ':' "character".data name.data (by decide)
    have hn := jsSplitChar_of_not_mem ':' name.data h
    constructor
    · unfold parsePresetName jsSplitChar2
      rw [hd1, hs1, hn]
      rfl
    · unfold parsePresetName jsSplitChar2
      rw [hd2, hs2, hn]
      rfl
  · intro name rest h
    have hmid : (name ++ ":" ++ rest).data = name.data ++ ':' :: rest.data :=
      data_append_colon name rest.data h
        (by rw [String.data_append]) rest rfl
    have hd1 : ("chatluna:" ++ (name ++ ":" ++ rest)).data =
        "chatluna".data ++ ':' :: (name.data ++ ':' :: rest.data) :=
      data_append_colon "chatluna" _ (by decide) rfl _ hmid
    have hd2 : ("character:" ++ (name ++ ":" ++ rest)).data =
        "character".data ++ ':' :: (name.data ++ ':' :: rest.data) :=
      data_append_colon "character" _ (by decide) rfl _ hmid
    have hs1 : jsSplitChar ':' ("chatluna".data ++ ':' :: (name.data ++ ':' :: rest.data)) =
        "chatluna".data :: jsSplitChar ':' (name.data ++ ':' :: rest.data) :=
      jsSplitChar_append_sep ':' "chatluna".data _ (by decide)
    have hs2 : jsSplitChar ':' ("character".data ++ ':' :: (name.data ++ ':' :: rest.data)) =
        "character".data :: jsSplitChar ':' (name.data ++ ':' :: rest.data) :=
      jsSplitChar_append_sep ':' "character".data _ (by decide)
    have hn : jsSplitChar ':' (name.data ++ ':' :: rest.data) =
        name.data :: jsSplitChar ':' rest.data :=
      jsSplitChar_append_sep ':' name.data rest.data h
    obtain ⟨x, xs, hsplit⟩ : ∃ x xs, jsSplitChar ':' rest.data = x :: xs := by
      cases hc : jsSplitChar ':' rest.data with
      | nil => exact absurd hc (jsSplitChar_ne_nil ':' rest.data)
      | cons x xs => exact ⟨x, xs, rfl⟩
    constructor
    · unfold parsePresetName jsSplitChar2
      rw [hd1, hs1, hn, hsplit]
      rfl
    · unfold parsePresetName jsSplitChar2
      rw [hd2, hs2, hn, hsplit]
      rfl
  · intro p rest h hp1 hp2
    have hd : (p ++ ":" ++ rest).data = p.data ++ ':' :: rest.data :=
      data_append_colon p rest.data h (by rw [String.data_append]) rest rfl
    have hsep : jsSplitChar ':' (p.data ++ ':' :: rest.data) =
        p.data :: jsSplitChar ':' rest.data :=
      jsSplitChar_append_sep ':' p.data rest.data h
    obtain ⟨x, xs, hsplit⟩ : ∃ x xs, jsSplitChar ':' rest.data = x :: xs := by
      cases hc : jsSplitChar ':' rest.data with
      | nil => exact absurd hc (jsSplitChar_ne_nil ':' rest.data)
      | cons x xs => exact ⟨x, xs, rfl⟩
    unfold parsePresetName jsSplitChar2
    rw [hd, hsep, hsplit]
    show (if String.mk p.data = "chatluna" then (String.mk x, PresetSource.ChatLuna)
      else if String.mk p.data = "character" then (String.mk x, PresetSource.Character)
      else (p ++ ":" ++ rest, PresetSource.ChatLuna)) = (p ++ ":" ++ rest, PresetSource.ChatLuna)
    rw [show String.mk p.data = p from rfl, if_neg hp1, if_neg hp2]

/-- C6 amended witness. -/
theorem C6_amended_witness :
    parsePresetName "foo" = ("foo", PresetSource.ChatLuna) ∧
      parsePresetName ("chatluna:" ++ "helper") = ("helper", PresetSource.ChatLuna) :=
  ⟨C6_amended.1 "foo" (by decide), (C6_amended.2.1 "helper" (by decide)).1⟩

/-! ## `createRoom` success characterization -/

lemma dbCreateRoom_ok {db : DB} {r : Room} {out : DB}
    (h : dbCreateRoom db r = .ok out) : out = { db with rooms := db.rooms ++ [r] } := by
  unfold dbCreateRoom at h
  split at h
  · cases h
  · injection h with h
    exact h.symm

lemma dbCreateMember_ok {db : DB} {m : Member} {out : DB}
    (h : dbCreateMember db m = .ok out) : out = { db with members := db.members ++ [m] } := by
  unfold dbCreateMember at h
  split at h
  · cases h
  · injection h with h
    exact h.symm

lemma dbCreateGroupMember_ok {db : DB} {g : GroupMember} {out : DB}
    (h : dbCreateGroupMember db g = .ok out) :
    out = { db with groupMembers := db.groupMembers ++ [g] } := by
  unfold dbCreateGroupMember at h
  split at h
  · cases h
  · injection h with h
    exact h.symm

lemma dbCreateUser_ok {db : DB} {u : ChathubUser} {out : DB}
    (h : dbCreateUser db u = .ok out) : out = { db with users := db.users ++ [u] } := by
  unfold dbCreateUser at h
  split at h
  · cases h
  · injection h with h
    exact h.symm

lemma bind_ok_inv {α β : Type} {e : Except String α} {f : α → Except String β} {b : β}
    (h : (e >>= f) = .ok b) : ∃ a, e = .ok a ∧ f a = .ok b := by
  cases e with
  | error e => simp [Bind.bind, Except.bind] at h
  | ok a =>
    refine ⟨a, rfl, ?_⟩
    simpa [Bind.bind, Except.bind] using h

lemma createRoom_ok {db : DB} {o : CreateRoomOptions} {uuid : String} {now : Nat}
    {out : DB × Room} (h : createRoom db o uuid now = .ok out) :
    out.2 = newRoomOf db o uuid now ∧
    out.1.rooms = db.rooms ++ [out.2] ∧
    out.1.members = db.members ++ [⟨o.roomMasterId, maxRoomId db + 1, "owner"⟩] ∧
    (if o.guildId ≠ "" && o.visibility ≠ "private" then
      out.1.groupMembers = db.groupMembers ++ [⟨o.guildId, maxRoomId db + 1, o.visibility⟩]
     else out.1.groupMembers = db.groupMembers) ∧
    out.1.users = db.users := by
  simp only [createRoom] at h
  obtain ⟨dbA, hA, h⟩ := bind_ok_inv h
  obtain ⟨dbB, hB, h⟩ := bind_ok_inv h
  have hdbA := dbCreateRoom_ok hA
  subst hdbA
  have hdbB := dbCreateMember_ok hB
  subst hdbB
  split at h
  · rename_i hguild
    obtain ⟨dbC, hC, h⟩ := bind_ok_inv h
    have hdbC := dbCreateGroupMember_ok hC
    subst hdbC
    simp only [pure, Except.pure, Except.ok.injEq] at h
    subst h
    rw [if_pos hguild]
    simp
  · rename_i hguild
    obtain ⟨dbC, hC, h⟩ := bind_ok_inv h
    simp only [pure, Except.pure, Except.ok.injEq] at hC
    subst hC
    simp only [pure, Except.pure, Except.ok.injEq] at h
    subst h
    rw [if_neg hguild]
    simp

/-- C4: every conversation record created by this core (all creation paths
go through `BotManager.createRoom`) is inserted with
`conversationKey = bot_<botId>_<uuid>`, and the identity id produced by
`getBotId` is the `platform:selfId` pair, so the key has the form
`bot_<platform:selfId>_<uuid>`. -/
theorem C4_conversation_key (db : DB) (o : CreateRoomOptions) (uuid : String) (now : Nat)
    (out : DB × Room) (h : createRoom db o uuid now = .ok out) :
    out.2.conversationId = "bot_" ++ o.botId ++ "_" ++ uuid ∧
    out.1.rooms = db.rooms ++ [out.2] ∧
    (∀ platform selfId u, generateConversationId (getBotId platform selfId) u =
      "bot_" ++ (platform ++ ":" ++ selfId) ++ "_" ++ u) := by
  have hc := createRoom_ok h
  refine ⟨?_, hc.2.1, fun p sid u => rfl⟩
  rw [hc.1]
  rfl

/-- C4 witness. -/
theorem C4_conversation_key_witness :
    (⟨⟨[⟨1, "alice (disc:42)", "u1", "bot_disc:42_uuidX", "", "", "chat", "private", "",
          false, 5⟩], [⟨"u1", 1, "owner"⟩], [], []⟩,
      ⟨1, "alice (disc:42)", "u1", "bot_disc:42_uuidX", "", "", "chat", "private", "",
        false, 5⟩⟩ : DB × Room).2.conversationId = "bot_" ++ "disc:42" ++ "_" ++ "uuidX" :=
  (C4_conversation_key ⟨[], [], [], []⟩
    ⟨"disc:42", "alice (disc:42)", "u1", "", "private", "", "", ""⟩ "uuidX" 5
    ⟨⟨[⟨1, "alice (disc:42)", "u1", "bot_disc:42_uuidX", "", "", "chat", "private", "",
        false, 5⟩], [⟨"u1", 1, "owner"⟩], [], []⟩,
      ⟨1, "alice (disc:42)", "u1", "bot_disc:42_uuidX", "", "", "chat", "private", "",
        false, 5⟩⟩ rfl).1

/-- C10: every conversation record created by this core is created with
`autoUpdate = false`. -/
theorem C10_auto_update_false (db : DB) (o : CreateRoomOptions) (uuid : String) (now : Nat)
    (out : DB × Room) (h : createRoom db o uuid now = .ok out) :
    out.2.autoUpdate = false ∧ out.1.rooms = db.rooms ++ [out.2] := by
  have hc := createRoom_ok h
  refine ⟨?_, hc.2.1⟩
  rw [hc.1]
  rfl

/-- C10 witness. -/
theorem C10_auto_update_false_witness :
    (⟨⟨[⟨1, "bob (qq:7)", "u2", "bot_qq:7_uuidY", "", "", "chat", "private", "",
          false, 9⟩], [⟨"u2", 1, "owner"⟩], [], []⟩,
      ⟨1, "bob (qq:7)", "u2", "bot_qq:7_uuidY", "", "", "chat", "private", "",
        false, 9⟩⟩ : DB × Room).2.autoUpdate = false :=
  (C10_auto_update_false ⟨[], [], [], []⟩
    ⟨"qq:7", "bob (qq:7)", "u2", "", "private", "", "", ""⟩ "uuidY" 9
    ⟨⟨[⟨1, "bob (qq:7)", "u2", "bot_qq:7_uuidY", "", "", "chat", "private", "",
        false, 9⟩], [⟨"u2", 1, "owner"⟩], [], []⟩,
      ⟨1, "bob (qq:7)", "u2", "bot_qq:7_uuidY", "", "", "chat", "private", "",
        false, 9⟩⟩ rfl).1

/-- C9: when no enabled configuration exists for the message's identity, or
the identity declares neither a preset nor a model, the pre-hook returns
CONTINUE without stashing a bot config, without binding a room, and
without touching the store (this is the "pass through" signal: the host's
own resolution then applies its defaults). -/
theorem C9_pass_through (db : DB) (s : Session) (configs : List BotPersonaConfig)
    (rn : Option String) (uuid : String) (now : Nat)
    (h : ∀ cfg, configs.find?
        (fun b => b.botId == getBotId s.platform (s.botSelfId.getD s.selfId)) = some cfg →
      cfg.enabled = false ∨ (cfg.preset = "" ∧ cfg.model = "")) :
    resolveBotRoom db s configs rn uuid now = .ok ⟨RunStatus.CONTINUE, none, none, db⟩ := by
  simp only [resolveBotRoom]
  cases hf : configs.find?
      (fun b => b.botId == getBotId s.platform (s.botSelfId.getD s.selfId)) with
  | none => rfl
  | some cfg =>
    rcases h cfg hf with he | ⟨hp, hm⟩
    · simp [he]
    · cases he : cfg.enabled <;> simp [he, hp, hm]

/-- C9 witness. -/
theorem C9_pass_through_witness :
    resolveBotRoom ⟨[], [], [], []⟩ ⟨"disc", some "42", "42", "u1", "", "alice", ""⟩
        [⟨"disc:42", true, "", "", ""⟩] none "u" 0 =
      .ok ⟨RunStatus.CONTINUE, none, none, ⟨[], [], [], []⟩⟩ :=
  C9_pass_through ⟨[], [], [], []⟩ ⟨"disc", some "42", "42", "u1", "", "alice", ""⟩
    [⟨"disc:42", true, "", "", ""⟩] none "u" 0 (by decide)

/-! ## Field-correction lemmas -/

lemma fixRoomFields_fields (c : CharonBotConfig) (r : Room) :
    (fixRoomFields c r).1.preset =
      (if c.preset ≠ "" ∧ r.preset ≠ c.preset then c.preset else r.preset) ∧
    (fixRoomFields c r).1.model =
      (if c.model ≠ "" ∧ r.model ≠ c.model then c.model else r.model) ∧
    (fixRoomFields c r).1.chatMode = c.chatMode ∧
    (fixRoomFields c r).1.roomId = r.roomId ∧
    (fixRoomFields c r).1.roomName = r.roomName ∧
    (fixRoomFields c r).1.conversationId = r.conversationId ∧
    (fixRoomFields c r).1.visibility = r.visibility ∧
    (fixRoomFields c r).1.roomMasterId = r.roomMasterId ∧
    (fixRoomFields c r).1.updatedTime = r.updatedTime ∧
    (fixRoomFields c r).1.password = r.password ∧
    (fixRoomFields c r).1.autoUpdate = r.autoUpdate := by
  by_cases hp : c.preset = "" <;> by_cases hrp : r.preset = c.preset <;>
    by_cases hm : c.model = "" <;> by_cases hrm : r.model = c.model <;>
    by_cases hcm : r.chatMode = c.chatMode <;>
    simp [fixRoomFields, bne_iff_ne, ne_eq, hp, hrp, hm, hrm, hcm]

/-- A room already agreeing with the stashed config: non-empty declared
preset/model match, chat mode matches. -/
def roomMatchesStash (c : CharonBotConfig) (r : Room) : Prop :=
  (c.preset = "" ∨ r.preset = c.preset) ∧
  (c.model = "" ∨ r.model = c.model) ∧
  r.chatMode = c.chatMode

lemma fixRoomFields_of_matches {c : CharonBotConfig} {r : Room}
    (h : roomMatchesStash c r) : fixRoomFields c r = (r, false) := by
  obtain ⟨h1, h2, h3⟩ := h
  have e1 : (c.preset != "" && r.preset != c.preset) = false := by
    rcases h1 with h1 | h1 <;> simp [h1]
  have e2 : (c.model != "" && r.model != c.model) = false := by
    rcases h2 with h2 | h2 <;> simp [h2]
  have e3 : (r.chatMode != c.chatMode) = false := by simp [h3]
  simp [fixRoomFields, e1, e2, e3]

lemma matches_fixRoomFields (c : CharonBotConfig) (r : Room) :
    roomMatchesStash c (fixRoomFields c r).1 := by
  obtain ⟨hpre, hmod, hcm, -⟩ := fixRoomFields_fields c r
  refine ⟨?_, ?_, hcm⟩
  · rw [hpre]
    by_cases hp : c.preset = "" ∧ True
    · simp [hp.1]
    · by_cases hq : c.preset ≠ "" ∧ r.preset ≠ c.preset
      · simp [hq]
      · rw [if_neg hq]
        push_neg at hq
        by_cases hz : c.preset = ""
        · exact Or.inl hz
        · exact Or.inr (hq hz)
  · rw [hmod]
    by_cases hq : c.model ≠ "" ∧ r.model ≠ c.model
    · simp [hq]
    · rw [if_neg hq]
      push_neg at hq
      by_cases hz : c.model = ""
      · exact Or.inl hz
      · exact Or.inr (hq hz)

lemma roomMatchesStash_updatedTime {c : CharonBotConfig} {r : Room} {t : Nat}
    (h : roomMatchesStash c r) : roomMatchesStash c { r with updatedTime := t } := h

/-- Inversion of a successful `fixRoomAutoUpdate` run into its rebind step
and field-correction step. -/
lemma fixRoomAutoUpdate_run {db : DB} {s : Session} {configs : List BotPersonaConfig}
    {c : CharonBotConfig} {r : Room} {uuid : String} {now : Nat} {out : FixOutcome}
    (h : fixRoomAutoUpdate db s configs (some c) (some r) uuid now = .ok out) :
    ∃ db1 cur, rebindStep db s configs c r uuid now = .ok (db1, cur) ∧
      out = (if (fixRoomFields c cur).2 then
              ⟨dbUpsertRoom db1 { (fixRoomFields c cur).1 with updatedTime := now },
                some { (fixRoomFields c cur).1 with updatedTime := now }, true⟩
             else ⟨db1, some cur, false⟩) := by
  simp only [fixRoomAutoUpdate] at h
  obtain ⟨p, hp, h⟩ := bind_ok_inv h
  refine ⟨p.1, p.2, hp, ?_⟩
  split at h
  · rename_i hfix
    simp only [Except.ok.injEq] at h
    rw [if_pos hfix]
    exact h.symm
  · rename_i hfix
    simp only [Except.ok.injEq] at h
    rw [if_neg hfix]
    exact h.symm

/-- Forward evaluation of `fixRoomAutoUpdate` when the (rebound) room
already agrees with the stash: no upsert, the store and binding are
unchanged. -/
lemma fixRoomAutoUpdate_eval {db : DB} {s : Session} {configs : List BotPersonaConfig}
    {c : CharonBotConfig} {r : Room} {uuid : String} {now : Nat} {db1 : DB} {cur : Room}
    (hreb : rebindStep db s configs c r uuid now = .ok (db1, cur))
    (hmatch : fixRoomFields c cur = (cur, false)) :
    fixRoomAutoUpdate db s configs (some c) (some r) uuid now = .ok ⟨db1, some cur, false⟩ := by
  simp only [fixRoomAutoUpdate, hreb, Bind.bind, Except.bind, hmatch]
  rfl

lemma fixRoomFields_false_matches {c : CharonBotConfig} {r : Room}
    (h : (fixRoomFields c r).2 = false) : roomMatchesStash c r := by
  rw [show (fixRoomFields c r).2 =
      ((c.preset != "" && r.preset != c.preset) ||
        (c.model != "" && r.model != c.model) || (r.chatMode != c.chatMode)) from rfl] at h
  simp only [Bool.or_eq_false_iff, Bool.and_eq_false_iff, bne_eq_false_iff_eq] at h
  obtain ⟨⟨h1, h2⟩, h3⟩ := h
  exact ⟨h1, h2, h3⟩

/-- C1: in a reconciliation run with a stashed config and a bound room
owned by the stashed identity (so no rebinding takes place), the room bound
after the run has: `preset` overwritten exactly when the stashed preset is
non-empty and differs, `model` overwritten exactly when the stashed model
is non-empty and differs, and `chatMode` always equal to the stashed chat
mode; an empty stashed preset or model leaves the corresponding field
unchanged. -/
theorem C1_field_correction (db : DB) (s : Session) (configs : List BotPersonaConfig)
    (c : CharonBotConfig) (r : Room) (uuid : String) (now : Nat) (out : FixOutcome)
    (hpre : strStartsWith r.conversationId ("bot_" ++ c.botId ++ "_") = true)
    (h : fixRoomAutoUpdate db s configs (some c) (some r) uuid now = .ok out) :
    ∀ r', out.room = some r' →
      (r'.preset = if c.preset ≠ "" ∧ r.preset ≠ c.preset then c.preset else r.preset) ∧
      (r'.model = if c.model ≠ "" ∧ r.model ≠ c.model then c.model else r.model) ∧
      r'.chatMode = c.chatMode ∧
      (c.preset = "" → r'.preset = r.preset) ∧
      (c.model = "" → r'.model = r.model) := by
  obtain ⟨db1, cur, hreb, hout⟩ := fixRoomAutoUpdate_run h
  have hreb2 : rebindStep db s configs c r uuid now = Except.ok (db, r) := by
    unfold rebindStep
    rw [if_pos hpre]
  rw [hreb2] at hreb
  injection hreb with hpair
  rw [Prod.mk.injEq] at hpair
  obtain ⟨hd1, hc1⟩ := hpair
  subst hd1
  subst hc1
  intro r' hr'
  obtain ⟨hfp, hfm, hfc, -⟩ := fixRoomFields_fields c r
  suffices hS : (r'.preset = if c.preset ≠ "" ∧ r.preset ≠ c.preset then c.preset else r.preset) ∧
      (r'.model = if c.model ≠ "" ∧ r.model ≠ c.model then c.model else r.model) ∧
      r'.chatMode = c.chatMode by
    refine ⟨hS.1, hS.2.1, hS.2.2, fun hp0 => ?_, fun hm0 => ?_⟩
    · rw [hS.1, if_neg (by simp [hp0])]
    · rw [hS.2.1, if_neg (by simp [hm0])]
  cases hfix : (fixRoomFields c r).2 with
  | true =>
    rw [hfix, if_pos rfl] at hout
    rw [hout] at hr'
    have hr2 : some ({ (fixRoomFields c r).1 with updatedTime := now } : Room) = some r' := hr'
    injection hr2 with hr3
    subst hr3
    exact ⟨hfp, hfm, hfc⟩
  | false =>
    rw [hfix, if_neg (by simp)] at hout
    rw [hout] at hr'
    have hr2 : some r = some r' := hr'
    injection hr2 with hr3
    subst hr3
    have hm := fixRoomFields_false_matches hfix
    refine ⟨?_, ?_, hm.2.2⟩
    · rw [if_neg ?_]
      rintro ⟨ha, hb⟩
      rcases hm.1 with hz | hz
      · exact ha hz
      · exact hb hz
    · rw [if_neg ?_]
      rintro ⟨ha, hb⟩
      rcases hm.2.1 with hz | hz
      · exact ha hz
      · exact hb hz

/-- C1 witness. -/
theorem C1_field_correction_witness :
    ("helper" : String) = (if ("helper" : String) ≠ "" ∧ ("oldp" : String) ≠ "helper"
      then ("helper" : String) else "oldp") ∧
    ("vendorA/modelX" : String) = (if ("vendorA/modelX" : String) ≠ "" ∧
      ("oldm" : String) ≠ "vendorA/modelX" then ("vendorA/modelX" : String) else "oldm") ∧
    ("chat" : String) = "chat" := by
  have h := C1_field_correction
    ⟨[⟨7, "alice (disc:42)", "u1", "bot_disc:42_x", "oldp", "oldm", "chat", "private", "",
        false, 5⟩], [], [], []⟩
    ⟨"disc", some "42", "42", "u1", "", "alice", ""⟩ []
    ⟨"disc:42", "helper", "vendorA/modelX", "chat"⟩
    ⟨7, "alice (disc:42)", "u1", "bot_disc:42_x", "oldp", "oldm", "chat", "private", "",
      false, 5⟩ "u" 200
    ⟨⟨[⟨7, "alice (disc:42)", "u1", "bot_disc:42_x", "helper", "vendorA/modelX", "chat",
        "private", "", false, 200⟩], [], [], []⟩,
      some ⟨7, "alice (disc:42)", "u1", "bot_disc:42_x", "helper", "vendorA/modelX", "chat",
        "private", "", false, 200⟩, true⟩
    (by decide) rfl
    ⟨7, "alice (disc:42)", "u1", "bot_disc:42_x", "helper", "vendorA/modelX", "chat",
      "private", "", false, 200⟩ rfl
  exact ⟨h.1, h.2.1, h.2.2.1⟩

/-- C7 counterexample: the claim states the memory-layer identifiers are
rewritten to `<identityId>_<originalId>` where the identity id is the
`platform:selfId` pair.  The handler only reads
`session?.bot?.selfId ?? session?.selfId` and never the platform, so on a
layer with platform `disc` and self id `42` a present user id `u1` becomes
`42_u1`, not `disc:42_u1` (= `getBotId "disc" "42" ++ "_" ++ "u1"`). -/
theorem C7_counterexample :
    (memoryInitLayer true ⟨"disc", some "42", none, some "u1", none⟩).userId = some "42_u1" ∧
      some "42_u1" ≠ some (getBotId "disc" "42" ++ "_" ++ "u1") := by
  constructor
  · decide
  · decide

/-- C7 amended: on an init-layer notification with isolation enabled and a
truthy session self id `b` (taken from `session?.bot?.selfId ?? session?.selfId`,
without the platform), a present non-empty user identifier is rewritten to
`<b>_<originalId>` and a present non-empty group identifier to
`<b>_<originalId>`; an absent identifier stays absent, the rest of the
payload is untouched, and with isolation disabled the whole payload is
untouched.  The handler is a pure transformation of the payload (no store
access). -/
theorem C7_amended (isolate : Bool) (layer : LayerConfig) (b : String)
    (hb : layer.sessionBotSelfId.orElse (fun _ => layer.sessionSelfId) = some b)
    (hb0 : b ≠ "") :
    (isolate = true →
      (∀ u, layer.userId = some u → u ≠ "" →
        (memoryInitLayer isolate layer).userId = some (b ++ "_" ++ u)) ∧
      (layer.userId = none → (memoryInitLayer isolate layer).userId = none) ∧
      (∀ g, layer.guildId = some g → g ≠ "" →
        (memoryInitLayer isolate layer).guildId = some (b ++ "_" ++ g)) ∧
      (layer.guildId = none → (memoryInitLayer isolate layer).guildId = none) ∧
      (memoryInitLayer isolate layer).sessionPlatform = layer.sessionPlatform) ∧
    (isolate = false → memoryInitLayer isolate layer = layer) := by
  constructor
  · intro hiso
    subst hiso
    have htr : truthy (layer.sessionBotSelfId.orElse (fun _ => layer.sessionSelfId)) = true := by
      rw [hb]
      simpa [truthy] using hb0
    refine ⟨?_, ?_, ?_, ?_, ?_⟩
    · intro u hu hu0
      cases hg : layer.guildId with
      | none => simp [memoryInitLayer, htr, hb, hb0, hu, hg, truthy, hu0]
      | some g =>
        by_cases hg0 : g = "" <;>
          simp [memoryInitLayer, htr, hb, hb0, hu, hg, truthy, hu0, hg0]
    · intro hu
      cases hg : layer.guildId with
      | none => simp [memoryInitLayer, htr, hb, hb0, hu, hg, truthy]
      | some g =>
        by_cases hg0 : g = "" <;>
          simp [memoryInitLayer, htr, hb, hb0, hu, hg, truthy, hg0]
    · intro g hg hg0
      cases hu : layer.userId with
      | none => simp [memoryInitLayer, htr, hb, hb0, hu, hg, truthy, hg0]
      | some u =>
        by_cases hu0 : u = "" <;>
          simp [memoryInitLayer, htr, hb, hb0, hu, hg, truthy, hu0, hg0]
    · intro hg
      cases hu : layer.userId with
      | none => simp [memoryInitLayer, htr, hb, hb0, hu, hg, truthy]
      | some u =>
        by_cases hu0 : u = "" <;>
          simp [memoryInitLayer, htr, hb, hb0, hu, hg, truthy, hu0]
    · cases hu : layer.userId with
      | none =>
        cases hg : layer.guildId with
        | none => simp [memoryInitLayer, htr, hb, hb0, hu, hg, truthy]
        | some g =>
          by_cases hg0 : g = "" <;>
            simp [memoryInitLayer, htr, hb, hb0, hu, hg, truthy, hg0]
      | some u =>
        cases hg : layer.guildId with
        | none =>
          by_cases hu0 : u = "" <;>
            simp [memoryInitLayer, htr, hb, hb0, hu, hg, truthy, hu0]
        | some g =>
          by_cases hu0 : u = "" <;> by_cases hg0 : g = "" <;>
            simp [memoryInitLayer, htr, hb, hb0, hu, hg, truthy, hu0, hg0]
  · intro hiso
    subst hiso
    simp [memoryInitLayer]

/-- C7 amended witness. -/
theorem C7_amended_witness :
    (memoryInitLayer true ⟨"disc", some "42", none, some "u1", some "g9"⟩).userId =
      some ("42" ++ "_" ++ "u1") :=
  ((C7_amended true ⟨"disc", some "42", none, some "u1", some "g9"⟩ "42" rfl
    (by decide)).1 rfl).1 "u1" rfl (by decide)

/-- C2: in a reconciliation run with a stashed config and a bound room,
when the room's `conversationId` does not start with `bot_<identityId>_`
(and the identity's config is still registered), the pass re-runs the
find-or-create logic (`getOrCreateBotSpecificRoom`) and the room bound
after the run is that result, field-corrected afterwards; when the
`conversationId` does carry the prefix, the bound room is never rebound:
it keeps its record id and conversation key. -/
theorem C2_rebind (db : DB) (s : Session) (configs : List BotPersonaConfig)
    (c : CharonBotConfig) (r : Room) (uuid : String) (now : Nat) (cfg : BotPersonaConfig)
    (out : FixOutcome)
    (hcfg : configs.find? (fun b => b.botId == c.botId) = some cfg)
    (h : fixRoomAutoUpdate db s configs (some c) (some r) uuid now = .ok out) :
    (strStartsWith r.conversationId ("bot_" ++ c.botId ++ "_") = false →
      ∀ db1 cr, getOrCreateBotSpecificRoom db s c.botId cfg uuid now = .ok (db1, cr) →
        out.room = some (if (fixRoomFields c cr).2 then
            { (fixRoomFields c cr).1 with updatedTime := now } else cr) ∧
        out.db = (if (fixRoomFields c cr).2 then
            dbUpsertRoom db1 { (fixRoomFields c cr).1 with updatedTime := now } else db1)) ∧
    (strStartsWith r.conversationId ("bot_" ++ c.botId ++ "_") = true →
      ∀ r', out.room = some r' →
        r'.roomId = r.roomId ∧ r'.conversationId = r.conversationId) := by
  obtain ⟨db1, cur, hreb, hout⟩ := fixRoomAutoUpdate_run h
  constructor
  · intro hpre db1' cr' hgoc
    have hreb2 : rebindStep db s configs c r uuid now =
        getOrCreateBotSpecificRoom db s c.botId cfg uuid now := by
      unfold rebindStep
      rw [if_neg (by simp [hpre]), hcfg]
    rw [hreb2, hgoc] at hreb
    injection hreb with hpair
    rw [Prod.mk.injEq] at hpair
    obtain ⟨hd1, hc1⟩ := hpair
    rw [hd1, hc1]
    cases hfix : (fixRoomFields c cur).2 with
    | true =>
      rw [hfix, if_pos rfl] at hout
      rw [hout]
      exact ⟨rfl, rfl⟩
    | false =>
      rw [hfix, if_neg (by simp)] at hout
      rw [hout]
      exact ⟨rfl, rfl⟩
  · intro hpre r' hr'
    have hreb2 : rebindStep db s configs c r uuid now = Except.ok (db, r) := by
      unfold rebindStep
      rw [if_pos hpre]
    rw [hreb2] at hreb
    injection hreb with hpair
    rw [Prod.mk.injEq] at hpair
    obtain ⟨hd1, hc1⟩ := hpair
    subst hd1
    subst hc1
    obtain ⟨-, -, -, hid, -, hconv, -⟩ := fixRoomFields_fields c r
    cases hfix : (fixRoomFields c r).2 with
    | true =>
      rw [hfix, if_pos rfl] at hout
      rw [hout] at hr'
      have hr2 : some ({ (fixRoomFields c r).1 with updatedTime := now } : Room) = some r' := hr'
      injection hr2 with hr3
      subst hr3
      exact ⟨hid, hconv⟩
    | false =>
      rw [hfix, if_neg (by simp)] at hout
      rw [hout] at hr'
      have hr2 : some r = some r' := hr'
      injection hr2 with hr3
      subst hr3
      exact ⟨rfl, rfl⟩

/-- C2 witness. -/
theorem C2_rebind_witness :
    (⟨⟨[⟨8, "alice (disc:42)", "u1", "bot_disc:42_z", "helper", "vendorA/modelX", "chat", "private", "", false, 5⟩], [⟨"u1", 8, "owner"⟩], [], []⟩, some ⟨8, "alice (disc:42)", "u1", "bot_disc:42_z", "helper", "vendorA/modelX", "chat", "private", "", false, 5⟩, false⟩ : FixOutcome).room =
      some (if (fixRoomFields ⟨"disc:42", "helper", "vendorA/modelX", "chat"⟩ ⟨8, "alice (disc:42)", "u1", "bot_disc:42_z", "helper", "vendorA/modelX", "chat", "private", "", false, 5⟩).2 then
        { (fixRoomFields ⟨"disc:42", "helper", "vendorA/modelX", "chat"⟩ ⟨8, "alice (disc:42)", "u1", "bot_disc:42_z", "helper", "vendorA/modelX", "chat", "private", "", false, 5⟩).1 with
          updatedTime := 100 } else ⟨8, "alice (disc:42)", "u1", "bot_disc:42_z", "helper", "vendorA/modelX", "chat", "private", "", false, 5⟩) :=
  ((C2_rebind ⟨[⟨8, "alice (disc:42)", "u1", "bot_disc:42_z", "helper", "vendorA/modelX", "chat", "private", "", false, 5⟩], [⟨"u1", 8, "owner"⟩], [], []⟩
      ⟨"disc", some "42", "42", "u1", "", "alice", ""⟩
      [⟨"disc:42", true, "chatluna:helper", "vendorA/modelX", ""⟩]
      ⟨"disc:42", "helper", "vendorA/modelX", "chat"⟩
      ⟨7, "other", "u1", "host_7", "p", "m", "chat", "private", "", true, 4⟩
      "u" 100 ⟨"disc:42", true, "chatluna:helper", "vendorA/modelX", ""⟩
      ⟨⟨[⟨8, "alice (disc:42)", "u1", "bot_disc:42_z", "helper", "vendorA/modelX", "chat", "private", "", false, 5⟩], [⟨"u1", 8, "owner"⟩], [], []⟩, some ⟨8, "alice (disc:42)", "u1", "bot_disc:42_z", "helper", "vendorA/modelX", "chat", "private", "", false, 5⟩, false⟩ rfl rfl).1 rfl
      ⟨[⟨8, "alice (disc:42)", "u1", "bot_disc:42_z", "helper", "vendorA/modelX", "chat", "private", "", false, 5⟩], [⟨"u1", 8, "owner"⟩], [], []⟩ ⟨8, "alice (disc:42)", "u1", "bot_disc:42_z", "helper", "vendorA/modelX", "chat", "private", "", false, 5⟩ rfl).1

lemma le_foldr_max (l : List Nat) (a : Nat) (h : a ∈ l) : a ≤ l.foldr max 0 := by
  induction l with
  | nil => cases h
  | cons x xs ih =>
    rcases List.mem_cons.mp h with h | h
    · subst h
      exact Nat.le_max_left _ _
    · exact Nat.le_trans (ih h) (Nat.le_max_right _ _)

lemma mem_le_maxRoomId {db : DB} {r : Room} (h : r ∈ db.rooms) : r.roomId ≤ maxRoomId db :=
  le_foldr_max _ _ (List.mem_map_of_mem Room.roomId h)

lemma dbCreateRoom_fresh (db : DB) (r : Room) (h : maxRoomId db < r.roomId) :
    dbCreateRoom db r = .ok { db with rooms := db.rooms ++ [r] } := by
  unfold dbCreateRoom
  rw [if_neg]
  intro hc
  obtain ⟨x, hx, hbeq⟩ := List.any_eq_true.mp hc
  have := mem_le_maxRoomId hx
  have hco : x.roomId = r.roomId := by simpa using hbeq
  omega

/-- C8 counterexample: the claim states that every create of the store
adapter treats a uniqueness-constraint violation as idempotent success.
On a store holding a stale membership row `(u1, 1)`, `BotManager.createRoom`
allocates room id 1, its membership create hits the uniqueness constraint,
and the error is rethrown: the creation aborts with an error instead of
completing as success. -/
theorem C8_counterexample :
    createRoom ⟨[], [⟨"u1", 1, "member"⟩], [], []⟩
        ⟨"disc:42", "n", "u1", "", "private", "", "", ""⟩ "u" 0 =
      .error "UNIQUE constraint failed: chathub_room_member" := rfl

/-- C8 amended: only the user-default (`chathub_user`) create of
`createBotSpecificRoom` treats a uniqueness violation as idempotent
success — when `createRoom` succeeds but the default-room row already
exists, the surrounding creation still completes with the created room
and the store state returned by `createRoom`.  Uniqueness failures on the
conversation-record, membership-record and scope-association creates
inside `createRoom` are rethrown: in particular a pre-existing membership
row for the allocated room id aborts the whole creation with the
membership uniqueness error. -/
theorem C8_amended :
    (∀ (db : DB) (s : Session) (botId : String) (cfg : BotPersonaConfig)
        (uuid : String) (now : Nat) (db1 : DB) (nr : Room) (e : String),
      createRoom db (botRoomOptions s botId cfg) uuid now = .ok (db1, nr) →
      dbCreateUser db1 (defaultUserRow s nr.roomId) = .error e →
      createBotSpecificRoom db s botId cfg uuid now = .ok (db1, nr)) ∧
    (∀ (db : DB) (o : CreateRoomOptions) (uuid : String) (now : Nat),
      db.members.any
        (fun x => x.userId == o.roomMasterId && x.roomId == maxRoomId db + 1) = true →
      createRoom db o uuid now = .error "UNIQUE constraint failed: chathub_room_member") := by
  constructor
  · intro db s botId cfg uuid now db1 nr e hcr hcu
    simp only [createBotSpecificRoom, hcr, Bind.bind, Except.bind, hcu]
    rfl
  · intro db o uuid now h
    simp only [createRoom]
    rw [dbCreateRoom_fresh db (newRoomOf db o uuid now) (Nat.lt_succ_self _)]
    have hm : dbCreateMember { db with rooms := db.rooms ++ [newRoomOf db o uuid now] }
        ⟨o.roomMasterId, maxRoomId db + 1, "owner"⟩ =
        .error "UNIQUE constraint failed: chathub_room_member" := by
      unfold dbCreateMember
      rw [if_pos h]
    simp only [Bind.bind, Except.bind, hm]

/-- C8 amended witness. -/
theorem C8_amended_witness :
    createBotSpecificRoom ⟨[], [], [], [⟨"u1", "0", 3⟩]⟩
        ⟨"disc", some "42", "42", "u1", "", "alice", ""⟩ "disc:42"
        ⟨"disc:42", true, "", "", ""⟩ "u" 7 =
      .ok (⟨[⟨1, "alice (disc:42)", "u1", "bot_disc:42_u", "", "", "chat", "private", "",
          false, 7⟩], [⟨"u1", 1, "owner"⟩], [], [⟨"u1", "0", 3⟩]⟩,
        ⟨1, "alice (disc:42)", "u1", "bot_disc:42_u", "", "", "chat", "private", "",
          false, 7⟩) :=
  C8_amended.1 ⟨[], [], [], [⟨"u1", "0", 3⟩]⟩
    ⟨"disc", some "42", "42", "u1", "", "alice", ""⟩ "disc:42"
    ⟨"disc:42", true, "", "", ""⟩ "u" 7
    ⟨[⟨1, "alice (disc:42)", "u1", "bot_disc:42_u", "", "", "chat", "private", "",
        false, 7⟩], [⟨"u1", 1, "owner"⟩], [], [⟨"u1", "0", 3⟩]⟩
    ⟨1, "alice (disc:42)", "u1", "bot_disc:42_u", "", "", "chat", "private", "",
      false, 7⟩
    "UNIQUE constraint failed: chathub_user" rfl rfl

/-! ## Substring and option helper lemmas -/

lemma isPrefixOf_refl (l : List Char) : l.isPrefixOf l = true := by
  induction l with
  | nil => rfl
  | cons x xs ih => simp [List.isPrefixOf, ih]

lemma listHasInfix_append_self (u pat : List Char) : listHasInfix pat (u ++ pat) = true := by
  induction u with
  | nil =>
    cases pat with
    | nil => rfl
    | cons x xs =>
      simp only [List.nil_append, listHasInfix]
      rw [isPrefixOf_refl]
      rfl
  | cons x u ih =>
    simp only [List.cons_append, listHasInfix]
    rw [show u.append pat = u ++ pat from rfl, ih]
    simp

/-- The display name built by `createBotSpecificRoom` always contains the
parenthesised bot id. -/
lemma nameHasBot_of_built (base botId : String) :
    nameHasBot botId (base ++ " (" ++ botId ++ ")") = true := by
  unfold nameHasBot
  have hdata : (base ++ " (" ++ botId ++ ")").data =
      (base ++ " ").data ++ ("(" ++ botId ++ ")").data := by
    rw [show base ++ " (" ++ botId ++ ")" = (base ++ " ") ++ ("(" ++ botId ++ ")") by
      simp only [String.append_assoc]
      congr 1]
    rw [String.data_append]
  rw [hdata]
  exact listHasInfix_append_self _ _

lemma orElse_some {α : Type} {o : Option α} {f : Unit → Option α} {r : α}
    (h : (Option.orElse o f) = some r) : o = some r ∨ (o = none ∧ f () = some r) := by
  cases o with
  | none => simp_all [Option.orElse]
  | some a => simp_all [Option.orElse]

lemma mem_of_head? {α : Type} {l : List α} {a : α} (h : l.head? = some a) : a ∈ l := by
  cases l with
  | nil => cases h
  | cons x xs =>
    simp only [List.head?] at h
    injection h with h
    subst h
    exact List.mem_cons_self _ _

/-- C5 counterexample: the claim states that step-4 candidate rooms are
the user's membership rooms "filtered to those whose key embeds the
identityId".  The source filters by the display name containing
`(botId)` instead.  On a store holding a membership room whose name
contains `(disc:42)` but whose `conversationId` is `host_3` — a key that
does not contain the identity id at all — the selection returns that room
(and the find-or-create step binds it without creating anything), even
though under the claim it would not be a candidate. -/
theorem C5_counterexample :
    selectRoom ⟨[⟨3, "x (disc:42)", "u1", "host_3", "p", "m", "chat", "private", "", false, 1⟩], [⟨"u1", 3, "member"⟩], [], []⟩
        ⟨"disc", some "42", "42", "u1", "", "alice", ""⟩ "disc:42" =
      some ⟨3, "x (disc:42)", "u1", "host_3", "p", "m", "chat", "private", "", false, 1⟩ ∧
    listHasInfix "disc:42".data ("host_3" : String).data = false ∧
    getOrCreateBotSpecificRoom ⟨[⟨3, "x (disc:42)", "u1", "host_3", "p", "m", "chat", "private", "", false, 1⟩], [⟨"u1", 3, "member"⟩], [], []⟩
        ⟨"disc", some "42", "42", "u1", "", "alice", ""⟩ "disc:42"
        ⟨"disc:42", true, "", "", ""⟩ "u" 0 =
      .ok (⟨[⟨3, "x (disc:42)", "u1", "host_3", "p", "m", "chat", "private", "", false, 1⟩], [⟨"u1", 3, "member"⟩], [], []⟩, ⟨3, "x (disc:42)", "u1", "host_3", "p", "m", "chat", "private", "", false, 1⟩) := by
  refine ⟨by decide, by decide, rfl⟩

/-- C5 amended: in the resolver's step-4 find-or-create, candidate rooms
are the user's membership rooms filtered to those whose *display name*
contains `(identityId)` (not the conversation key, which the claim
stated); for group scopes the tie-break prefers a candidate associated
with that group with `template_clone` (scoped-template) visibility, else
any candidate associated with that group, and when no candidate is
associated with the group nothing is selected; for direct scopes it
prefers a private-visibility candidate mastered by this user, else any
private candidate, else the first candidate; if nothing is selected, a
new room is created with visibility `private` for direct scope,
`template_clone` for group scope, key `bot_<identityId>_<uuid>`, the
parsed declared preset (empty if undeclared), the declared model, and a
display name containing `(identityId)`. -/
theorem C5_amended (db : DB) (s : Session) (botId : String) (cfg : BotPersonaConfig)
    (uuid : String) (now : Nat) :
    (∀ r, selectRoom db s botId = some r → r ∈ candidateRooms db s.userId botId) ∧
    (s.guildId = "" → ∀ r, selectRoom db s botId = some r →
      ((∃ x ∈ candidateRooms db s.userId botId,
          x.visibility = "private" ∧ x.roomMasterId = s.userId) →
        r.visibility = "private" ∧ r.roomMasterId = s.userId) ∧
      ((∀ x ∈ candidateRooms db s.userId botId,
          ¬(x.visibility = "private" ∧ x.roomMasterId = s.userId)) →
        (∃ x ∈ candidateRooms db s.userId botId, x.visibility = "private") →
        r.visibility = "private") ∧
      ((∀ x ∈ candidateRooms db s.userId botId, x.visibility ≠ "private") →
        (candidateRooms db s.userId botId).head? = some r)) ∧
    (s.guildId ≠ "" → ∀ r, selectRoom db s botId = some r →
      (groupRoomIds db s.userId s.guildId).contains r.roomId = true ∧
      ((∃ x ∈ candidateRooms db s.userId botId,
          (groupRoomIds db s.userId s.guildId).contains x.roomId = true ∧
          x.visibility = "template_clone") →
        r.visibility = "template_clone")) ∧
    (s.guildId ≠ "" →
      (∀ x ∈ candidateRooms db s.userId botId,
        (groupRoomIds db s.userId s.guildId).contains x.roomId = false) →
      selectRoom db s botId = none) ∧
    (selectRoom db s botId = none →
      getOrCreateBotSpecificRoom db s botId cfg uuid now =
        createBotSpecificRoom db s botId cfg uuid now ∧
      ∀ db2 nr, createBotSpecificRoom db s botId cfg uuid now = .ok (db2, nr) →
        nr.visibility = (if s.guildId = "" then "private" else "template_clone") ∧
        nr.conversationId = "bot_" ++ botId ++ "_" ++ uuid ∧
        nr.preset = (if cfg.preset ≠ "" then (parsePresetName cfg.preset).1 else "") ∧
        nr.model = cfg.model ∧
        nameHasBot botId nr.roomName = true) := by
  refine ⟨?_, ?_, ?_, ?_, ?_⟩
  · intro r hr
    simp only [selectRoom] at hr
    split at hr
    · cases hr
    · split at hr
      · rcases orElse_some hr with h1 | ⟨h1, h2⟩
        · exact List.mem_of_find?_eq_some h1
        · exact List.mem_of_find?_eq_some h2
      · rcases orElse_some hr with h1 | ⟨h1, h2⟩
        · rcases orElse_some h1 with h3 | ⟨h3, h4⟩
          · exact List.mem_of_find?_eq_some h3
          · exact List.mem_of_find?_eq_some h4
        · exact mem_of_head? h2
  · intro hdir r hr
    simp only [selectRoom] at hr
    split at hr
    · cases hr
    · rw [if_neg (by simp [hdir])] at hr
      refine ⟨?_, ?_, ?_⟩
      · rintro ⟨x, hx, hxp, hxm⟩
        cases hf : (candidateRooms db s.userId botId).find?
            (fun r => r.visibility == "private" && r.roomMasterId == s.userId) with
        | none =>
          exfalso
          have := List.find?_eq_none.mp hf x hx
          simp [hxp, hxm] at this
        | some y =>
          rw [hf] at hr
          rcases orElse_some hr with h1 | ⟨h1, h2⟩
          · rcases orElse_some h1 with h3 | ⟨h3, h4⟩
            · injection h3 with h3
              subst h3
              have := List.find?_some hf
              simp at this
              exact this
            · cases h3
          · simp [Option.orElse] at h1
      · intro hno ⟨x, hx, hxp⟩
        have hf1 : (candidateRooms db s.userId botId).find?
            (fun r => r.visibility == "private" && r.roomMasterId == s.userId) = none := by
          rw [List.find?_eq_none]
          intro y hy hc
          simp only [Bool.and_eq_true, beq_iff_eq] at hc
          exact hno y hy ⟨hc.1, hc.2⟩
        cases hf2 : (candidateRooms db s.userId botId).find?
            (fun r => r.visibility == "private") with
        | none =>
          exfalso
          have := List.find?_eq_none.mp hf2 x hx
          simp [hxp] at this
        | some y =>
          rw [hf1, hf2] at hr
          rcases orElse_some hr with h1 | ⟨h1, h2⟩
          · rcases orElse_some h1 with h3 | ⟨h3, h4⟩
            · cases h3
            · injection h4 with h4
              subst h4
              have := List.find?_some hf2
              simpa using this
          · simp [Option.orElse] at h1
      · intro hno
        have hf1 : (candidateRooms db s.userId botId).find?
            (fun r => r.visibility == "private" && r.roomMasterId == s.userId) = none := by
          rw [List.find?_eq_none]
          intro y hy hc
          simp only [Bool.and_eq_true, beq_iff_eq] at hc
          exact hno y hy hc.1
        have hf2 : (candidateRooms db s.userId botId).find?
            (fun r => r.visibility == "private") = none := by
          rw [List.find?_eq_none]
          intro y hy hc
          simp only [beq_iff_eq] at hc
          exact hno y hy hc
        rw [hf1, hf2] at hr
        simpa [Option.orElse] using hr
  · intro hgr r hr
    simp only [selectRoom] at hr
    split at hr
    · cases hr
    · rcases orElse_some hr with h1 | ⟨h1, h2⟩
      · have := List.find?_some h1
        simp only [Bool.and_eq_true, beq_iff_eq] at this
        exact ⟨this.1, fun _ => this.2⟩
      · have hp2 := List.find?_some h2
        refine ⟨hp2, ?_⟩
        rintro ⟨x, hx, hxa, hxt⟩
        exfalso
        have hcontra := List.find?_eq_none.mp h1 x hx
        simp [hxt] at hcontra
        exact hcontra (by simpa using hxa)
  · intro hgr hall
    simp only [selectRoom]
    split
    · rfl
    · have hf1 : (candidateRooms db s.userId botId).find?
          (fun r => (groupRoomIds db s.userId s.guildId).contains r.roomId &&
            r.visibility == "template_clone") = none := by
        rw [List.find?_eq_none]
        intro y hy hc
        simp only [Bool.and_eq_true] at hc
        rw [hall y hy] at hc
        cases hc.1
      have hf2 : (candidateRooms db s.userId botId).find?
          (fun r => (groupRoomIds db s.userId s.guildId).contains r.roomId) = none := by
        rw [List.find?_eq_none]
        intro y hy hc
        rw [hall y hy] at hc
        cases hc
      rw [hf1, hf2]
      rfl
  · intro hsel
    constructor
    · simp only [getOrCreateBotSpecificRoom, hsel]
    · intro db2 nr hc
      simp only [createBotSpecificRoom] at hc
      obtain ⟨p, hp, hc⟩ := bind_ok_inv hc
      obtain ⟨db1, newRoom⟩ := p
      have hcr := createRoom_ok hp
      simp only at hcr
      simp only [pure, Except.pure, Except.ok.injEq] at hc
      have hnr : newRoom = nr := by
        have := congrArg Prod.snd hc
        simpa using this
      subst hnr
      rw [hcr.1]
      refine ⟨rfl, rfl, rfl, rfl, ?_⟩
      exact nameHasBot_of_built _ botId

/-- C5 amended witness. -/
theorem C5_amended_witness :
    (⟨3, "x (disc:42)", "u1", "host_3", "p", "m", "chat", "private", "", false, 1⟩ : Room).visibility = "private" ∧
      (⟨3, "x (disc:42)", "u1", "host_3", "p", "m", "chat", "private", "", false, 1⟩ : Room).roomMasterId = "u1" :=
  ((C5_amended ⟨[⟨3, "x (disc:42)", "u1", "host_3", "p", "m", "chat", "private", "", false, 1⟩], [⟨"u1", 3, "member"⟩], [], []⟩
      ⟨"disc", some "42", "42", "u1", "", "alice", ""⟩ "disc:42"
      ⟨"disc:42", true, "", "", ""⟩ "u" 0).2.1 rfl
    ⟨3, "x (disc:42)", "u1", "host_3", "p", "m", "chat", "private", "", false, 1⟩ (by decide)).1
    ⟨⟨3, "x (disc:42)", "u1", "host_3", "p", "m", "chat", "private", "", false, 1⟩, by decide, rfl, rfl⟩

/-! ## Stability lemmas for the reconciliation idempotence proof -/

lemma members_upsert (db : DB) (fr : Room) : (dbUpsertRoom db fr).members = db.members := by
  unfold dbUpsertRoom
  split <;> rfl

lemma groupMembers_upsert (db : DB) (fr : Room) :
    (dbUpsertRoom db fr).groupMembers = db.groupMembers := by
  unfold dbUpsertRoom
  split <;> rfl

lemma userRoomIds_upsert (db : DB) (fr : Room) (u : String) :
    userRoomIds (dbUpsertRoom db fr) u = userRoomIds db u := by
  unfold userRoomIds
  rw [members_upsert]

lemma groupRoomIds_upsert (db : DB) (fr : Room) (u g : String) :
    groupRoomIds (dbUpsertRoom db fr) u g = groupRoomIds db u g := by
  unfold groupRoomIds
  rw [groupMembers_upsert, userRoomIds_upsert]

lemma rooms_upsert_of_any (db : DB) (fr : Room)
    (h : db.rooms.any (fun x => x.roomId == fr.roomId) = true) :
    (dbUpsertRoom db fr).rooms =
      db.rooms.map (fun x => if x.roomId == fr.roomId then fr else x) := by
  unfold dbUpsertRoom
  rw [if_pos h]

lemma filter_map_congr {α : Type} (l : List α) (m : α → α) (p : α → Bool)
    (h : ∀ y ∈ l, p (m y) = p y) : (l.map m).filter p = (l.filter p).map m := by
  induction l with
  | nil => rfl
  | cons x xs ih =>
    have hx := h x (List.mem_cons_self x xs)
    have hxs : ∀ y ∈ xs, p (m y) = p y := fun y hy => h y (List.mem_cons_of_mem x hy)
    simp only [List.map_cons, List.filter_cons, hx]
    split
    · rw [List.map_cons, ih hxs]
    · exact ih hxs

lemma find?_map_congr {α : Type} (l : List α) (m : α → α) (p : α → Bool)
    (h : ∀ y ∈ l, p (m y) = p y) : (l.map m).find? p = (l.find? p).map m := by
  induction l with
  | nil => rfl
  | cons x xs ih =>
    have hx := h x (List.mem_cons_self x xs)
    have hxs : ∀ y ∈ xs, p (m y) = p y := fun y hy => h y (List.mem_cons_of_mem x hy)
    simp only [List.map_cons]
    cases hp : p x with
    | true =>
      rw [List.find?_cons_of_pos _ (by rw [hx, hp]), List.find?_cons_of_pos _ hp]
      rfl
    | false =>
      rw [List.find?_cons_of_neg _ (by rw [hx, hp]; simp),
        List.find?_cons_of_neg _ (by rw [hp]; simp)]
      exact ih hxs

lemma orElse_map {α : Type} (o : Option α) (f : Unit → Option α) (m : α → α) :
    Option.orElse (o.map m) (fun u => (f u).map m) = (Option.orElse o f).map m := by
  cases o <;> rfl

/-- The selected room is one of the candidate rooms. -/
lemma selectRoom_mem {db : DB} {s : Session} {botId : String} {x : Room}
    (h : selectRoom db s botId = some x) : x ∈ candidateRooms db s.userId botId := by
  simp only [selectRoom] at h
  split at h
  · cases h
  · split at h
    · rcases orElse_some h with h1 | ⟨h1, h2⟩
      · exact List.mem_of_find?_eq_some h1
      · exact List.mem_of_find?_eq_some h2
    · rcases orElse_some h with h1 | ⟨h1, h2⟩
      · rcases orElse_some h1 with h3 | ⟨h3, h4⟩
        · exact List.mem_of_find?_eq_some h3
        · exact List.mem_of_find?_eq_some h4
      · exact mem_of_head? h2

lemma candidateRooms_sub {db : DB} {u botId : String} {x : Room}
    (h : x ∈ candidateRooms db u botId) : x ∈ db.rooms := by
  unfold candidateRooms at h
  exact List.mem_of_mem_filter (List.mem_of_mem_filter h)

lemma selectRoom_upsert_eq (db : DB) (s : Session) (botId : String) (fr : Room)
    (hany : db.rooms.any (fun y => y.roomId == fr.roomId) = true)
    (hpres : ∀ y ∈ db.rooms, y.roomId = fr.roomId →
      fr.roomName = y.roomName ∧ fr.visibility = y.visibility ∧
        fr.roomMasterId = y.roomMasterId) :
    selectRoom (dbUpsertRoom db fr) s botId =
      (selectRoom db s botId).map (fun y => if y.roomId == fr.roomId then fr else y) := by
  set m : Room → Room := fun y => if y.roomId == fr.roomId then fr else y with hm
  have hfields : ∀ y ∈ db.rooms, (m y).roomId = y.roomId ∧ (m y).roomName = y.roomName ∧
      (m y).visibility = y.visibility ∧ (m y).roomMasterId = y.roomMasterId := by
    intro y hy
    by_cases hc : (y.roomId == fr.roomId) = true
    · have hideq : y.roomId = fr.roomId := beq_iff_eq.mp hc
      obtain ⟨hn, hv, hma⟩ := hpres y hy hideq
      have hmy : m y = fr := by
        rw [hm]
        exact if_pos hc
      rw [hmy]
      exact ⟨hideq.symm, hn, hv, hma⟩
    · have hmy : m y = y := by
        rw [hm]
        exact if_neg hc
      rw [hmy]
      exact ⟨rfl, rfl, rfl, rfl⟩
  have hcand : candidateRooms (dbUpsertRoom db fr) s.userId botId =
      (candidateRooms db s.userId botId).map m := by
    unfold candidateRooms
    rw [rooms_upsert_of_any db fr hany, userRoomIds_upsert]
    rw [filter_map_congr db.rooms m _
      (fun y hy => by rw [(hfields y hy).1])]
    rw [filter_map_congr _ m _
      (fun y hy => by rw [(hfields y (List.mem_of_mem_filter hy)).2.1])]
  have hcandp : ∀ y ∈ candidateRooms db s.userId botId,
      (m y).roomId = y.roomId ∧ (m y).roomName = y.roomName ∧
      (m y).visibility = y.visibility ∧ (m y).roomMasterId = y.roomMasterId :=
    fun y hy => hfields y (candidateRooms_sub hy)
  simp only [selectRoom]
  rw [members_upsert, groupRoomIds_upsert, hcand]
  split
  · rfl
  · split
    · rw [find?_map_congr _ m _
        (fun y hy => by rw [(hcandp y hy).1, (hcandp y hy).2.2.1]),
        find?_map_congr _ m _
        (fun y hy => by rw [(hcandp y hy).1]),
        orElse_map]
    · rw [find?_map_congr _ m _
        (fun y hy => by rw [(hcandp y hy).2.2.1, (hcandp y hy).2.2.2]),
        find?_map_congr _ m _
        (fun y hy => by rw [(hcandp y hy).2.2.1]),
        List.head?_map, orElse_map, orElse_map]

lemma selectRoom_upsert {db : DB} {s : Session} {botId : String} {x fr : Room}
    (hnodup : (db.rooms.map Room.roomId).Nodup)
    (hsel : selectRoom db s botId = some x)
    (hid : fr.roomId = x.roomId) (hname : fr.roomName = x.roomName)
    (hvis : fr.visibility = x.visibility) (hmaster : fr.roomMasterId = x.roomMasterId) :
    selectRoom (dbUpsertRoom db fr) s botId = some fr := by
  have hxmem : x ∈ db.rooms := candidateRooms_sub (selectRoom_mem hsel)
  have hany : db.rooms.any (fun y => y.roomId == fr.roomId) = true := by
    rw [List.any_eq_true]
    exact ⟨x, hxmem, by simp [hid]⟩
  have hpres : ∀ y ∈ db.rooms, y.roomId = fr.roomId →
      fr.roomName = y.roomName ∧ fr.visibility = y.visibility ∧
        fr.roomMasterId = y.roomMasterId := by
    intro y hy hyid
    have hyx : y = x := by
      apply List.inj_on_of_nodup_map hnodup hy hxmem
      rw [show Room.roomId y = y.roomId from rfl, show Room.roomId x = x.roomId from rfl,
        hyid, hid]
    subst hyx
    exact ⟨hname ▸ rfl, hvis ▸ rfl, hmaster ▸ rfl⟩
  rw [selectRoom_upsert_eq db s botId fr hany hpres, hsel]
  simp [hid]

lemma contains_append (l₁ l₂ : List Nat) (a : Nat) :
    (l₁ ++ l₂).contains a = (l₁.contains a || l₂.contains a) := by
  simp [List.contains_eq_any_beq, List.any_append]

lemma orElse_none {α : Type} {o : Option α} {f : Unit → Option α}
    (h : Option.orElse o f = none) : o = none ∧ f () = none := by
  cases o with
  | none => simpa [Option.orElse] using h
  | some a => simp [Option.orElse] at h

lemma candidateRooms_nil_of_members {db : DB} {u botId : String}
    (hE : (db.members.filter (fun m => m.userId == u)).isEmpty = true) :
    candidateRooms db u botId = [] := by
  have huids : userRoomIds db u = [] := by
    unfold userRoomIds
    rw [List.isEmpty_iff.mp hE]
    rfl
  unfold candidateRooms
  rw [huids]
  have hinner : db.rooms.filter (fun r => ([] : List Nat).contains r.roomId) = [] :=
    List.filter_eq_nil_iff.mpr (fun y _ => by simp [List.contains])
  rw [hinner]
  rfl

lemma selectRoom_none_direct {db : DB} {s : Session} {botId : String}
    (hdir : s.guildId = "") (hsel : selectRoom db s botId = none) :
    candidateRooms db s.userId botId = [] := by
  simp only [selectRoom] at hsel
  split at hsel
  · rename_i hE
    exact candidateRooms_nil_of_members (by simpa using hE)
  · rw [if_neg (by simp [hdir])] at hsel
    obtain ⟨h1, h2⟩ := orElse_none hsel
    exact List.head?_eq_none_iff.mp h2

lemma selectRoom_none_group {db : DB} {s : Session} {botId : String}
    (hgr : s.guildId ≠ "") (hsel : selectRoom db s botId = none) :
    ∀ y ∈ candidateRooms db s.userId botId,
      (groupRoomIds db s.userId s.guildId).contains y.roomId = false := by
  simp only [selectRoom] at hsel
  split at hsel
  · rename_i hE
    rw [candidateRooms_nil_of_members (by simpa using hE)]
    intro y hy
    cases hy
  · obtain ⟨h1, h2⟩ := orElse_none hsel
    intro y hy
    have := List.find?_eq_none.mp h2 y hy
    simpa using this

lemma createBotSpecificRoom_ok {db : DB} {s : Session} {botId : String}
    {cfg : BotPersonaConfig} {uuid : String} {now : Nat} {db1 : DB} {nr : Room}
    (h : createBotSpecificRoom db s botId cfg uuid now = .ok (db1, nr)) :
    nr = newRoomOf db (botRoomOptions s botId cfg) uuid now ∧
    nr.roomId = maxRoomId db + 1 ∧
    db1.rooms = db.rooms ++ [nr] ∧
    db1.members = db.members ++ [⟨s.userId, maxRoomId db + 1, "owner"⟩] ∧
    (s.guildId = "" → db1.groupMembers = db.groupMembers) ∧
    (s.guildId ≠ "" → db1.groupMembers =
      db.groupMembers ++ [⟨s.guildId, maxRoomId db + 1, "template_clone"⟩]) := by
  simp only [createBotSpecificRoom] at h
  obtain ⟨p, hp, h⟩ := bind_ok_inv h
  obtain ⟨dbA, newRoom⟩ := p
  have hcr := createRoom_ok hp
  simp only at hcr
  obtain ⟨hnew, hrooms, hmembers, hgm, husers⟩ := hcr
  have hdb1 : db1.rooms = dbA.rooms ∧ db1.members = dbA.members ∧
      db1.groupMembers = dbA.groupMembers ∧ nr = newRoom := by
    cases hu : dbCreateUser dbA (defaultUserRow s newRoom.roomId) with
    | ok d =>
      rw [hu] at h
      simp only [pure, Except.pure, Except.ok.injEq, Prod.mk.injEq] at h
      have hd := dbCreateUser_ok hu
      obtain ⟨hd1, hnr⟩ := h
      subst hd1
      subst hd
      exact ⟨rfl, rfl, rfl, hnr.symm⟩
    | error e =>
      rw [hu] at h
      simp only [pure, Except.pure, Except.ok.injEq, Prod.mk.injEq] at h
      obtain ⟨hd1, hnr⟩ := h
      subst hd1
      exact ⟨rfl, rfl, rfl, hnr.symm⟩
  obtain ⟨hr1, hm1, hg1, hnr⟩ := hdb1
  subst hnr
  refine ⟨hnew, by rw [hnew]; rfl, by rw [hr1, hrooms], by rw [hm1, hmembers]; rfl, ?_, ?_⟩
  · intro hdir
    rw [hg1]
    have hcond : ((botRoomOptions s botId cfg).guildId ≠ "" &&
        (botRoomOptions s botId cfg).visibility ≠ "private") = false := by
      simp [botRoomOptions, hdir]
    rw [if_neg (by rw [hcond]; simp)] at hgm
    exact hgm
  · intro hgr
    rw [hg1]
    have hcond : ((botRoomOptions s botId cfg).guildId ≠ "" &&
        (botRoomOptions s botId cfg).visibility ≠ "private") = true := by
      simp [botRoomOptions, hgr]
    rw [if_pos hcond] at hgm
    rw [hgm]
    simp [botRoomOptions, hgr]

lemma selectRoom_after_create {db : DB} {s : Session} {botId : String}
    {cfg : BotPersonaConfig} {uuid : String} {now : Nat} {db1 : DB} {nr : Room}
    (hsel : selectRoom db s botId = none)
    (hcr : createBotSpecificRoom db s botId cfg uuid now = .ok (db1, nr)) :
    selectRoom db1 s botId = some nr := by
  obtain ⟨hnew, hNid, hrooms, hmembers, hgmdir, hgmgr⟩ := createBotSpecificRoom_ok hcr
  have hmf : db1.members.filter (fun m => m.userId == s.userId) =
      db.members.filter (fun m => m.userId == s.userId) ++
        [⟨s.userId, maxRoomId db + 1, "owner"⟩] := by
    rw [hmembers, List.filter_append]
    simp
  have huids : userRoomIds db1 s.userId =
      userRoomIds db s.userId ++ [maxRoomId db + 1] := by
    unfold userRoomIds
    rw [hmf, List.map_append]
    rfl
  have hlt : ∀ y ∈ db.rooms, y.roomId ≠ maxRoomId db + 1 := by
    intro y hy
    have := mem_le_maxRoomId hy
    omega
  have hnameN : nameHasBot botId nr.roomName = true := by
    rw [hnew]
    exact nameHasBot_of_built _ botId
  have hcontN : (userRoomIds db1 s.userId).contains nr.roomId = true := by
    rw [huids, hNid, contains_append]
    simp [List.contains]
  have hold : ∀ y ∈ db.rooms, ((userRoomIds db1 s.userId).contains y.roomId) =
      ((userRoomIds db s.userId).contains y.roomId) := by
    intro y hy
    rw [huids, contains_append]
    have h2 : ([maxRoomId db + 1] : List Nat).contains y.roomId = false := by
      simpa [List.contains] using hlt y hy
    rw [h2, Bool.or_false]
  have hcand : candidateRooms db1 s.userId botId =
      candidateRooms db s.userId botId ++ [nr] := by
    unfold candidateRooms
    rw [hrooms, List.filter_append]
    have e1 : db.rooms.filter (fun r => (userRoomIds db1 s.userId).contains r.roomId) =
        db.rooms.filter (fun r => (userRoomIds db s.userId).contains r.roomId) :=
      List.filter_congr (fun y hy => hold y hy)
    have e2 : [nr].filter (fun r => (userRoomIds db1 s.userId).contains r.roomId) = [nr] := by
      simp only [List.filter_cons, List.filter_nil, hcontN, if_true]
    rw [e1, e2, List.filter_append]
    have e3 : [nr].filter (fun r => nameHasBot botId r.roomName) = [nr] := by
      simp only [List.filter_cons, List.filter_nil, hnameN, if_true]
    rw [e3]
  simp only [selectRoom]
  rw [hmf, hcand]
  rw [if_neg (by simp)]
  by_cases hdir : s.guildId = ""
  · have hc0 : candidateRooms db s.userId botId = [] := selectRoom_none_direct hdir hsel
    rw [if_neg (by simp [hdir]), hc0]
    have hvis : nr.visibility = "private" := by
      rw [hnew]
      simp [newRoomOf, botRoomOptions, hdir]
    have hmas : nr.roomMasterId = s.userId := by
      rw [hnew]
      rfl
    simp [hvis, hmas, Option.orElse]
  · have hassoc := selectRoom_none_group hdir hsel
    rw [if_pos hdir]
    have hgm1 : db1.groupMembers =
        db.groupMembers ++ [⟨s.guildId, maxRoomId db + 1, "template_clone"⟩] := hgmgr hdir
    have hcontN2 : (userRoomIds db1 s.userId).contains (maxRoomId db + 1) = true := by
      rw [huids, contains_append]
      simp [List.contains]
    have hgidsN : (groupRoomIds db1 s.userId s.guildId).contains nr.roomId = true := by
      rw [hNid]
      have hmem : (maxRoomId db + 1) ∈ groupRoomIds db1 s.userId s.guildId := by
        unfold groupRoomIds
        refine List.mem_map.mpr ⟨⟨s.guildId, maxRoomId db + 1, "template_clone"⟩, ?_, rfl⟩
        refine List.mem_filter.mpr ⟨?_, ?_⟩
        · rw [hgm1]
          exact List.mem_append_right _ (List.mem_singleton.mpr rfl)
        · simp only [Bool.and_eq_true, beq_self_eq_true, true_and]
          exact hcontN2
      exact List.elem_iff.mpr hmem
    have hgidsOld : ∀ y ∈ candidateRooms db s.userId botId,
        (groupRoomIds db1 s.userId s.guildId).contains y.roomId = false := by
      intro y hy
      have hymem : y ∈ db.rooms := candidateRooms_sub hy
      cases hcb : (groupRoomIds db1 s.userId s.guildId).contains y.roomId with
      | false => rfl
      | true =>
        exfalso
        have hmem := List.elem_iff.mp hcb
        unfold groupRoomIds at hmem
        obtain ⟨g, hgmem, hgid⟩ := List.mem_map.mp hmem
        obtain ⟨hgin, hq⟩ := List.mem_filter.mp hgmem
        rw [hgm1] at hgin
        rcases List.mem_append.mp hgin with hgin | hgin
        · simp only [Bool.and_eq_true, beq_iff_eq] at hq
          have hgold : (userRoomIds db s.userId).contains g.roomId = true := by
            have := hq.2
            rw [huids, contains_append] at this
            have h2 : ([maxRoomId db + 1] : List Nat).contains g.roomId = false := by
              have : g.roomId ≠ maxRoomId db + 1 := by
                rw [hgid]
                exact hlt y hymem
              simpa [List.contains] using this
            rw [h2, Bool.or_false] at this
            exact this
          have hyin : y.roomId ∈ groupRoomIds db s.userId s.guildId := by
            unfold groupRoomIds
            refine List.mem_map.mpr ⟨g, ?_, hgid⟩
            refine List.mem_filter.mpr ⟨hgin, ?_⟩
            simp only [Bool.and_eq_true, beq_iff_eq]
            exact ⟨hq.1, hgold⟩
          have hcontr : (groupRoomIds db s.userId s.guildId).contains y.roomId = true :=
            List.elem_iff.mpr hyin
          rw [hassoc y hy] at hcontr
          cases hcontr
        · have hge : g = ⟨s.guildId, maxRoomId db + 1, "template_clone"⟩ :=
            List.mem_singleton.mp hgin
          rw [hge] at hgid
          exact hlt y hymem hgid.symm
    have hvisT : nr.visibility = "template_clone" := by
      rw [hnew]
      simp [newRoomOf, botRoomOptions, hdir]
    have hf1old : (candidateRooms db s.userId botId).find?
        (fun r => (groupRoomIds db1 s.userId s.guildId).contains r.roomId &&
          r.visibility == "template_clone") = none :=
      List.find?_eq_none.mpr (fun y hy => by rw [hgidsOld y hy]; simp)
    rw [List.find?_append, hf1old]
    have hf1new : ([nr] : List Room).find?
        (fun r => (groupRoomIds db1 s.userId s.guildId).contains r.roomId &&
          r.visibility == "template_clone") = some nr := by
      apply List.find?_cons_of_pos
      rw [hgidsN, hvisT]
      simp
    rw [hf1new]
    rfl

lemma nodup_after_create {db : DB} {s : Session} {botId : String}
    {cfg : BotPersonaConfig} {uuid : String} {now : Nat} {db1 : DB} {nr : Room}
    (hnodup : (db.rooms.map Room.roomId).Nodup)
    (hcr : createBotSpecificRoom db s botId cfg uuid now = .ok (db1, nr)) :
    (db1.rooms.map Room.roomId).Nodup := by
  obtain ⟨-, hNid, hrooms, -, -, -⟩ := createBotSpecificRoom_ok hcr
  rw [hrooms, List.map_append]
  rw [List.nodup_append]
  refine ⟨hnodup, List.nodup_singleton _, ?_⟩
  intro a ha hb
  simp only [List.map_cons, List.map_nil, List.mem_singleton] at hb
  obtain ⟨y, hy, hyid⟩ := List.mem_map.mp ha
  have := mem_le_maxRoomId hy
  rw [hb, hNid] at hyid
  omega

lemma getOrCreate_inv {db : DB} {s : Session} {botId : String} {cfg : BotPersonaConfig}
    {uuid : String} {now : Nat} {db1 : DB} {cur : Room}
    (h : getOrCreateBotSpecificRoom db s botId cfg uuid now = .ok (db1, cur)) :
    (selectRoom db s botId = some cur ∧ db1 = db) ∨
    (selectRoom db s botId = none ∧
      createBotSpecificRoom db s botId cfg uuid now = .ok (db1, cur)) := by
  unfold getOrCreateBotSpecificRoom at h
  cases hs : selectRoom db s botId with
  | some x =>
    rw [hs] at h
    injection h with h
    rw [Prod.mk.injEq] at h
    exact Or.inl ⟨congrArg some h.2, h.1.symm⟩
  | none =>
    rw [hs] at h
    exact Or.inr ⟨rfl, h⟩

lemma rebindStep_inv {db : DB} {s : Session} {configs : List BotPersonaConfig}
    {c : CharonBotConfig} {r : Room} {uuid : String} {now : Nat} {db1 : DB} {cur : Room}
    (h : rebindStep db s configs c r uuid now = .ok (db1, cur)) :
    (strStartsWith r.conversationId ("bot_" ++ c.botId ++ "_") = true ∧
      db1 = db ∧ cur = r) ∨
    (strStartsWith r.conversationId ("bot_" ++ c.botId ++ "_") = false ∧
      configs.find? (fun b => b.botId == c.botId) = none ∧ db1 = db ∧ cur = r) ∨
    (strStartsWith r.conversationId ("bot_" ++ c.botId ++ "_") = false ∧
      ∃ cfg, configs.find? (fun b => b.botId == c.botId) = some cfg ∧
        getOrCreateBotSpecificRoom db s c.botId cfg uuid now = .ok (db1, cur)) := by
  unfold rebindStep at h
  cases hpre : strStartsWith r.conversationId ("bot_" ++ c.botId ++ "_") with
  | true =>
    rw [if_pos hpre] at h
    injection h with h
    rw [Prod.mk.injEq] at h
    exact Or.inl ⟨rfl, h.1.symm, h.2.symm⟩
  | false =>
    rw [if_neg (by simp [hpre])] at h
    cases hfind : configs.find? (fun b => b.botId == c.botId) with
    | none =>
      rw [hfind] at h
      injection h with h
      rw [Prod.mk.injEq] at h
      exact Or.inr (Or.inl ⟨rfl, rfl, h.1.symm, h.2.symm⟩)
    | some cfg =>
      rw [hfind] at h
      exact Or.inr (Or.inr ⟨rfl, cfg, rfl, h⟩)

/-- The four selection-relevant fields and the conversation key survive the
field-correction step (with or without the timestamp bump). -/
lemma fixed_room_fields (c : CharonBotConfig) (cur : Room) (now : Nat) :
    ({ (fixRoomFields c cur).1 with updatedTime := now } : Room).roomId = cur.roomId ∧
    ({ (fixRoomFields c cur).1 with updatedTime := now } : Room).roomName = cur.roomName ∧
    ({ (fixRoomFields c cur).1 with updatedTime := now } : Room).visibility = cur.visibility ∧
    ({ (fixRoomFields c cur).1 with updatedTime := now } : Room).roomMasterId =
      cur.roomMasterId ∧
    ({ (fixRoomFields c cur).1 with updatedTime := now } : Room).conversationId =
      cur.conversationId := by
  obtain ⟨-, -, -, h1, h2, h3, h4, h5, -, -, -⟩ := fixRoomFields_fields c cur
  exact ⟨h1, h2, h4, h5, h3⟩

/-- C3: running the Reconciliation Pass a second time on the room bound by
a first successful run, with the same stashed context (and any uuid and
timestamp), is a no-op: the second run performs no upsert and leaves the
store, the bound record and its preset/model/chatMode unchanged.  The
hypothesis that `roomId`s are duplicate-free is the store's primary-key
invariant on `chathub_room`. -/
theorem C3_idempotent (db : DB) (s : Session) (configs : List BotPersonaConfig)
    (c : CharonBotConfig) (r : Room) (uuid uuid2 : String) (now now2 : Nat)
    (out : FixOutcome)
    (hnodup : (db.rooms.map Room.roomId).Nodup)
    (h : fixRoomAutoUpdate db s configs (some c) (some r) uuid now = .ok out) :
    ∀ r1, out.room = some r1 →
      fixRoomAutoUpdate out.db s configs (some c) (some r1) uuid2 now2 =
        .ok ⟨out.db, some r1, false⟩ := by
  obtain ⟨db1, cur, hreb, hout⟩ := fixRoomAutoUpdate_run h
  intro r1 hr1
  by_cases hfix : (fixRoomFields c cur).2 = true
  · rw [if_pos hfix] at hout
    have hr1' : r1 = { (fixRoomFields c cur).1 with updatedTime := now } := by
      rw [hout] at hr1
      have hr2 : some ({ (fixRoomFields c cur).1 with updatedTime := now } : Room) =
          some r1 := hr1
      injection hr2 with hr3
      exact hr3.symm
    subst hr1'
    obtain ⟨hfid, hfname, hfvis, hfmas, hfconv⟩ := fixed_room_fields c cur now
    have hm : roomMatchesStash c { (fixRoomFields c cur).1 with updatedTime := now } :=
      roomMatchesStash_updatedTime (matches_fixRoomFields c cur)
    have hreb2 : rebindStep (dbUpsertRoom db1 { (fixRoomFields c cur).1 with
          updatedTime := now }) s configs c
          { (fixRoomFields c cur).1 with updatedTime := now } uuid2 now2 =
        .ok (dbUpsertRoom db1 { (fixRoomFields c cur).1 with updatedTime := now },
          { (fixRoomFields c cur).1 with updatedTime := now }) := by
      by_cases hpre2 : strStartsWith ({ (fixRoomFields c cur).1 with
          updatedTime := now } : Room).conversationId ("bot_" ++ c.botId ++ "_") = true
      · unfold rebindStep
        rw [if_pos hpre2]
      · unfold rebindStep
        rw [if_neg hpre2]
        cases hfind : configs.find? (fun b => b.botId == c.botId) with
        | none => rfl
        | some cfgX =>
          have hselect : selectRoom (dbUpsertRoom db1 { (fixRoomFields c cur).1 with
              updatedTime := now }) s c.botId =
              some { (fixRoomFields c cur).1 with updatedTime := now } := by
            rcases rebindStep_inv hreb with ⟨hpre, hd, hc⟩ | ⟨hpre, hfind0, hd, hc⟩ |
              ⟨hpre, cfg0, hfind0, hgoc⟩
            · exfalso
              apply hpre2
              rw [hfconv, hc]
              exact hpre
            · rw [hfind0] at hfind
              cases hfind
            · rcases getOrCreate_inv hgoc with ⟨hsel1, hdb⟩ | ⟨hsel1, hcr⟩
              · subst hdb
                exact selectRoom_upsert hnodup hsel1 hfid hfname hfvis hfmas
              · have hsel2 := selectRoom_after_create hsel1 hcr
                have hnodup1 := nodup_after_create hnodup hcr
                exact selectRoom_upsert hnodup1 hsel2 hfid hfname hfvis hfmas
          unfold getOrCreateBotSpecificRoom
          rw [hselect]
    have hdbout : out.db = dbUpsertRoom db1 { (fixRoomFields c cur).1 with
        updatedTime := now } := by
      rw [hout]
    rw [hdbout]
    exact fixRoomAutoUpdate_eval hreb2 (fixRoomFields_of_matches hm)
  · rw [if_neg hfix] at hout
    have hfixf : (fixRoomFields c cur).2 = false := eq_false_of_ne_true hfix
    have hr1' : r1 = cur := by
      rw [hout] at hr1
      have hr2 : some cur = some r1 := hr1
      injection hr2 with hr3
      exact hr3.symm
    rw [hr1']
    have hm : roomMatchesStash c cur := fixRoomFields_false_matches hfixf
    have hreb2 : rebindStep db1 s configs c cur uuid2 now2 = .ok (db1, cur) := by
      by_cases hpre2 : strStartsWith cur.conversationId ("bot_" ++ c.botId ++ "_") = true
      · unfold rebindStep
        rw [if_pos hpre2]
      · unfold rebindStep
        rw [if_neg hpre2]
        cases hfind : configs.find? (fun b => b.botId == c.botId) with
        | none => rfl
        | some cfgX =>
          rcases rebindStep_inv hreb with ⟨hpre, hd, hc⟩ | ⟨hpre, hfind0, hd, hc⟩ |
            ⟨hpre, cfg0, hfind0, hgoc⟩
          · exfalso
            apply hpre2
            rw [hc]
            exact hpre
          · rw [hfind0] at hfind
            cases hfind
          · rcases getOrCreate_inv hgoc with ⟨hsel1, hdb⟩ | ⟨hsel1, hcr⟩
            · subst hdb
              unfold getOrCreateBotSpecificRoom
              rw [hsel1]
            · have hsel2 := selectRoom_after_create hsel1 hcr
              unfold getOrCreateBotSpecificRoom
              rw [hsel2]
    have hdbout : out.db = db1 := by
      rw [hout]
    rw [hdbout]
    exact fixRoomAutoUpdate_eval hreb2 (fixRoomFields_of_matches hm)

/-- C3 witness. -/
theorem C3_idempotent_witness :
    fixRoomAutoUpdate ⟨[⟨7, "alice (disc:42)", "u1", "bot_disc:42_x", "helper", "vendorA/modelX", "chat", "private", "", false, 200⟩], [], [], []⟩
        ⟨"disc", some "42", "42", "u1", "", "alice", ""⟩ []
        (some ⟨"disc:42", "helper", "vendorA/modelX", "chat"⟩)
        (some ⟨7, "alice (disc:42)", "u1", "bot_disc:42_x", "helper", "vendorA/modelX", "chat", "private", "", false, 200⟩) "u2" 300 =
      .ok ⟨⟨[⟨7, "alice (disc:42)", "u1", "bot_disc:42_x", "helper", "vendorA/modelX", "chat", "private", "", false, 200⟩], [], [], []⟩, some ⟨7, "alice (disc:42)", "u1", "bot_disc:42_x", "helper", "vendorA/modelX", "chat", "private", "", false, 200⟩, false⟩ :=
  C3_idempotent ⟨[⟨7, "alice (disc:42)", "u1", "bot_disc:42_x", "oldp", "oldm", "chat", "private", "", false, 5⟩], [], [], []⟩
    ⟨"disc", some "42", "42", "u1", "", "alice", ""⟩ []
    ⟨"disc:42", "helper", "vendorA/modelX", "chat"⟩
    ⟨7, "alice (disc:42)", "u1", "bot_disc:42_x", "oldp", "oldm", "chat", "private", "", false, 5⟩ "u" "u2" 200 300
    ⟨⟨[⟨7, "alice (disc:42)", "u1", "bot_disc:42_x", "helper", "vendorA/modelX", "chat", "private", "", false, 200⟩], [], [], []⟩, some ⟨7, "alice (disc:42)", "u1", "bot_disc:42_x", "helper", "vendorA/modelX", "chat", "private", "", false, 200⟩, true⟩
    (by decide) rfl
    ⟨7, "alice (disc:42)", "u1", "bot_disc:42_x", "helper", "vendorA/modelX", "chat", "private", "", false, 200⟩ rfl

end Charon